import Mathlib

/-!
Shallow embedding of the dangit-backend service (src/index.js, revision
2.4.0-SECURE+FEEDBACK) and proofs about its specified behaviour.

Conventions:
* JavaScript strings are modelled as `String` / `List Char`.
* `JSON.parse` is modelled by `parseJson` below (strict JSON grammar;
  numbers are kept as their raw literal, since no claim compares
  numeric values, only truthiness).
* External effects (the OpenAI model, HTTP fetch, the Supabase store)
  are modelled as explicit oracle arguments / explicit state threading.
-/

namespace Dangit

/-! ## Character and list-of-char utilities -/

def lbrace : Char := Char.ofNat 123
def rbrace : Char := Char.ofNat 125
def btick : Char := Char.ofNat 96
def dquote : Char := Char.ofNat 34
def bslash : Char := Char.ofNat 92

/-- Predicate `startsL pat s` : does `s` begin with `pat`? -/
def startsL : List Char → List Char → Bool
  | [], _ => true
  | _ :: _, [] => false
  | p :: ps, c :: cs => p == c && startsL ps cs

/-- Predicate `hasSubL s pat` : does `pat` occur as a contiguous substring of `s`? -/
def hasSubL : List Char → List Char → Bool
  | _, [] => true
  | [], _ :: _ => false
  | c :: cs, p :: ps => startsL (p :: ps) (c :: cs) || hasSubL cs (p :: ps)

/-- Index of the first element satisfying `p`, if any. -/
def firstIdx (p : Char → Bool) : List Char → Option Nat
  | [] => none
  | c :: cs =>
    if p c then some 0
    else (firstIdx p cs).map (· + 1)

/-- Index of the last element satisfying `p`, if any. -/
def lastIdx (p : Char → Bool) (cs : List Char) : Option Nat :=
  match firstIdx p cs.reverse with
  | none => none
  | some k => some (cs.length - 1 - k)

/-- JS whitespace test used by `trim` and `split(/\s+/)` (ASCII fragment). -/
def jsWs (c : Char) : Bool :=
  c == ' ' || c == Char.ofNat 9 || c == Char.ofNat 10 || c == Char.ofNat 13 ||
  c == Char.ofNat 12 || c == Char.ofNat 11

/-- JS `String.prototype.trim` on char lists. -/
def trimL (cs : List Char) : List Char :=
  ((cs.dropWhile jsWs).reverse.dropWhile jsWs).reverse

/-- JS `s.substring(0, n)` on strings (JS substring, counted in chars here). -/
def jsTrunc (s : String) (n : Nat) : String :=
  String.mk (s.data.take n)

/-- String containment, `s` contains `pat` (i.e. `s.includes(pat)`). -/
def sContains (s pat : String) : Bool :=
  hasSubL s.data pat.data

/-- JS `s.startsWith(pat)`. -/
def sStarts (s pat : String) : Bool :=
  startsL pat.data s.data

/-! ## JSON values and a model of `JSON.parse` -/

/-- JSON values. Numbers are stored as their raw literal text: no claim in
this development inspects a numeric value beyond its JS truthiness. -/
inductive Json where
  | jnull : Json
  | jbool : Bool → Json
  | jnum : List Char → Json
  | jstr : List Char → Json
  | jarr : List Json → Json
  | jobj : List (String × Json) → Json

/-- Is a JSON number literal a zero form (`0`, `-0.000`, `0e5`, ...)? -/
def jsNumZero (raw : List Char) : Bool :=
  let noSign := if startsL ['-'] raw then raw.drop 1 else raw
  let mantissa := noSign.takeWhile (fun c => c != 'e' && c != 'E')
  (mantissa.filter (fun c => c != '.')).all (· == '0')

/-- JS truthiness of a JSON value. -/
def truthy : Json → Bool
  | .jnull => false
  | .jbool b => b
  | .jnum raw => !jsNumZero raw
  | .jstr s => !s.isEmpty
  | .jarr _ => true
  | .jobj _ => true

/-- Property lookup on a JS object built by `JSON.parse`: a repeated key
keeps its last occurrence; a missing key reads as `undefined`, which for
this development's purposes behaves like `jnull`. -/
def getField (fs : List (String × Json)) (k : String) : Json :=
  (fs.foldl (fun acc p => if p.1 = k then some p.2 else acc) none).getD .jnull

/-- Field access `v.k` (on a non-object this is `undefined` ≈ `jnull`). -/
def jGet : Json → String → Json
  | .jobj fs, k => getField fs k
  | _, _ => .jnull

/-- JSON whitespace. -/
def jsonWs (c : Char) : Bool :=
  c == ' ' || c == Char.ofNat 9 || c == Char.ofNat 10 || c == Char.ofNat 13

def skipWs (cs : List Char) : List Char :=
  cs.dropWhile jsonWs

def hexVal (c : Char) : Option Nat :=
  if '0' ≤ c ∧ c ≤ '9' then some (c.toNat - 48)
  else if 'a' ≤ c ∧ c ≤ 'f' then some (c.toNat - 87)
  else if 'A' ≤ c ∧ c ≤ 'F' then some (c.toNat - 55)
  else none

/-- Body of a JSON string after the opening quote. Returns the decoded
characters and the input remaining after the closing quote. -/
def parseStrBody : Nat → List Char → Option (List Char × List Char)
  | 0, _ => none
  | _ + 1, [] => none
  | fuel + 1, c :: rest =>
    if c = dquote then some ([], rest)
    else if c = bslash then
      match rest with
      | [] => none
      | e :: rest2 =>
        if e = dquote ∨ e = bslash ∨ e = '/' then
          (parseStrBody fuel rest2).map (fun r => (e :: r.1, r.2))
        else if e = 'b' then
          (parseStrBody fuel rest2).map (fun r => (Char.ofNat 8 :: r.1, r.2))
        else if e = 'f' then
          (parseStrBody fuel rest2).map (fun r => (Char.ofNat 12 :: r.1, r.2))
        else if e = 'n' then
          (parseStrBody fuel rest2).map (fun r => (Char.ofNat 10 :: r.1, r.2))
        else if e = 'r' then
          (parseStrBody fuel rest2).map (fun r => (Char.ofNat 13 :: r.1, r.2))
        else if e = 't' then
          (parseStrBody fuel rest2).map (fun r => (Char.ofNat 9 :: r.1, r.2))
        else if e = 'u' then
          match rest2 with
          | h1 :: h2 :: h3 :: h4 :: rest3 =>
            match hexVal h1, hexVal h2, hexVal h3, hexVal h4 with
            | some a, some b, some c3, some d =>
              (parseStrBody fuel rest3).map
                (fun r => (Char.ofNat (a * 4096 + b * 256 + c3 * 16 + d) :: r.1, r.2))
            | _, _, _, _ => none
          | _ => none
        else none
    else if c.toNat < 32 then none
    else (parseStrBody fuel rest).map (fun r => (c :: r.1, r.2))

/-- One-or-more decimal digits. -/
def digitsTake (cs : List Char) : List Char × List Char :=
  (cs.takeWhile Char.isDigit, cs.dropWhile Char.isDigit)

/-- JSON number literal; returns the raw literal and the rest. -/
def parseNum (cs : List Char) : Option (List Char × List Char) :=
  let (sign, cs1) := if startsL ['-'] cs then (['-'], cs.drop 1) else ([], cs)
  match cs1 with
  | [] => none
  | d :: ds =>
    if !d.isDigit then none
    else
      let (ipart, rest1) :=
        if d = '0' then (['0'], ds)
        else digitsTake (d :: ds)
      let (fpart, rest2) :=
        match rest1 with
        | '.' :: more =>
          let (fd, r) := digitsTake more
          if fd.isEmpty then ([], rest1) else ('.' :: fd, r)
        | _ => ([], rest1)
      if rest1 ≠ [] ∧ startsL ['.'] rest1 ∧ fpart.isEmpty then none
      else
        let (epart, rest3) :=
          match rest2 with
          | e :: more =>
            if e = 'e' ∨ e = 'E' then
              let (esign, more2) :=
                match more with
                | s :: m2 => if s = '+' ∨ s = '-' then ([s], m2) else ([], more)
                | [] => ([], more)
              let (ed, r) := digitsTake more2
              if ed.isEmpty then ([], rest2) else (e :: (esign ++ ed), r)
            else ([], rest2)
          | [] => ([], rest2)
        if rest2 ≠ [] ∧ (startsL ['e'] rest2 ∨ startsL ['E'] rest2) ∧ epart.isEmpty then none
        else some (sign ++ ipart ++ fpart ++ epart, rest3)

mutual

/-- JSON value parser (strict JSON grammar, fuelled). -/
def parseVal : Nat → List Char → Option (Json × List Char)
  | 0, _ => none
  | fuel + 1, cs =>
    match skipWs cs with
    | [] => none
    | c :: rest =>
      if c = dquote then
        (parseStrBody (fuel + 1) rest).map (fun r => (.jstr r.1, r.2))
      else if c = lbrace then parseObj fuel rest
      else if c = '[' then parseArr fuel rest
      else if startsL ['t', 'r', 'u', 'e'] (c :: rest) then
        some (.jbool true, (c :: rest).drop 4)
      else if startsL ['f', 'a', 'l', 's', 'e'] (c :: rest) then
        some (.jbool false, (c :: rest).drop 5)
      else if startsL ['n', 'u', 'l', 'l'] (c :: rest) then
        some (.jnull, (c :: rest).drop 4)
      else
        (parseNum (c :: rest)).map (fun r => (.jnum r.1, r.2))

/-- Object body after the opening brace. -/
def parseObj : Nat → List Char → Option (Json × List Char)
  | 0, _ => none
  | fuel + 1, cs =>
    match skipWs cs with
    | [] => none
    | c :: rest =>
      if c = rbrace then some (.jobj [], rest)
      else if c = dquote then
        match parseStrBody (fuel + 1) rest with
        | none => none
        | some (key, rest2) =>
          match skipWs rest2 with
          | ':' :: rest3 =>
            match parseVal fuel rest3 with
            | none => none
            | some (v, rest4) => parseMembers fuel (String.mk key) v [] rest4
          | _ => none
      else none

/-- Remaining members of an object, accumulating parsed fields. -/
def parseMembers : Nat → String → Json → List (String × Json) → List Char →
    Option (Json × List Char)
  | 0, _, _, _, _ => none
  | fuel + 1, k, v, acc, cs =>
    let acc2 := acc ++ [(k, v)]
    match skipWs cs with
    | c :: rest =>
      if c = rbrace then some (.jobj acc2, rest)
      else if c = ',' then
        match skipWs rest with
        | q :: rest2 =>
          if q = dquote then
            match parseStrBody (fuel + 1) rest2 with
            | none => none
            | some (key, rest3) =>
              match skipWs rest3 with
              | ':' :: rest4 =>
                match parseVal fuel rest4 with
                | none => none
                | some (v2, rest5) => parseMembers fuel (String.mk key) v2 acc2 rest5
              | _ => none
          else none
        | [] => none
      else none
    | [] => none

/-- Array body after the opening bracket. -/
def parseArr : Nat → List Char → Option (Json × List Char)
  | 0, _ => none
  | fuel + 1, cs =>
    match skipWs cs with
    | [] => none
    | c :: rest =>
      if c = ']' then some (.jarr [], rest)
      else
        match parseVal fuel cs with
        | none => none
        | some (v, rest2) => parseElems fuel [v] rest2

/-- Remaining elements of an array. -/
def parseElems : Nat → List Json → List Char → Option (Json × List Char)
  | 0, _, _ => none
  | fuel + 1, acc, cs =>
    match skipWs cs with
    | c :: rest =>
      if c = ']' then some (.jarr acc, rest)
      else if c = ',' then
        match parseVal fuel rest with
        | none => none
        | some (v, rest2) => parseElems fuel (acc ++ [v]) rest2
      else none
    | [] => none

end

/-- Model of `JSON.parse` on char lists: a single JSON value, with only
whitespace around it. `none` models a thrown `SyntaxError`. -/
def parseJsonL (cs : List Char) : Option Json :=
  match parseVal (cs.length + 1) cs with
  | none => none
  | some (j, rest) => if (skipWs rest).isEmpty then some j else none

/-! ## `cleanJSONResponse` (src/index.js lines 45–65) -/

/-- The literal pattern of the fence-removal regex as written in the
source: six consecutive backtick characters. -/
def sixBt : List Char := List.replicate 6 btick

/-- Global, non-overlapping replacement of `pat` with the empty string,
scanning left to right (the semantics of `String.replace` with a `/g`
regex of a fixed literal). Fuelled by the input length. -/
def removeAllPat (pat : List Char) : Nat → List Char → List Char
  | 0, cs => cs
  | _ + 1, [] => []
  | fuel + 1, c :: cs =>
    if pat ≠ [] ∧ startsL pat (c :: cs) then
      removeAllPat pat fuel ((c :: cs).drop pat.length)
    else
      c :: removeAllPat pat fuel cs

/-- The cleaning stage of `cleanJSONResponse`:
`response.replace(/``````/g, '').trim()`. -/
def cleanedOf (response : String) : List Char :=
  trimL (removeAllPat sixBt response.data.length response.data)

/-- The regex `/\{[\s\S]*\}/`: greedy, so it matches from the first
opening brace to the last closing brace (when the latter comes after the
former), else there is no match. -/
def braceSub (cs : List Char) : Option (List Char) :=
  match firstIdx (· == lbrace) cs, lastIdx (· == rbrace) cs with
  | some i, some j =>
    if i < j then some ((cs.drop i).take (j - i + 1)) else none
  | _, _ => none

/-- Function `cleanJSONResponse` (src/index.js lines 45–65). `Except.error`
models a thrown error ("Empty response" / "Could not parse AI response
as JSON"). -/
def cleanJSONResponse (response : String) : Except Unit Json :=
  if response = "" then .error ()
  else
    let cleaned := cleanedOf response
    match parseJsonL cleaned with
    | some j => .ok j
    | none =>
      match braceSub cleaned with
      | some sub =>
        match parseJsonL sub with
        | some j => .ok j
        | none => .error ()
      | none => .error ()

/-- Modelled from the spec: "falls back to extracting the first balanced
`{...}` substring" — the substring starting at the first opening brace
and ending at the brace that closes it (depth returning to zero). This
definition follows the specification's words; it is *not* what the code
does, and exists to be compared against `braceSub`. -/
def balancedScan : Nat → Nat → List Char → Option (List Char)
  | 0, _, _ => none
  | _ + 1, _, [] => none
  | fuel + 1, depth, c :: cs =>
    if c = lbrace then
      (balancedScan fuel (depth + 1) cs).map (fun r => c :: r)
    else if c = rbrace then
      if depth = 1 then some [c]
      else if depth = 0 then none
      else (balancedScan fuel (depth - 1) cs).map (fun r => c :: r)
    else
      (balancedScan fuel depth cs).map (fun r => c :: r)

/-- Modelled from the spec: the first balanced `{...}` substring of the
input (see `balancedScan`). -/
def firstBalancedBrace (cs : List Char) : Option (List Char) :=
  match firstIdx (· == lbrace) cs with
  | none => none
  | some i => balancedScan (cs.length + 1) 0 (cs.drop i)

/-- Is an `Except` result a success? -/
def exOk : Except Unit Json → Bool
  | .ok _ => true
  | .error _ => false

/-! ## POST /api/analyze (src/index.js lines 277–538) -/

/-- The `content` field of the request body, in the two shapes the
orchestrator sends: a raw string (image data / text note), or the
scraped record for urls. -/
inductive AnalyzeContent where
  | str : String → AnalyzeContent
  | obj (url title description author : Option String) : AnalyzeContent

/-- The value of the `tags` field after
`(analysisResult.tags || []).slice(0, 5)` — `.slice` also works on a
string, giving a string. -/
inductive TagsVal where
  | arr : List Json → TagsVal
  | str : String → TagsVal

/-- JS `length` of the tags value. -/
def tagsLen : TagsVal → Nat
  | .arr xs => xs.length
  | .str s => s.length

/-- The analysis record sent back by /api/analyze (the fields every
branch sets; extra per-branch fields are not needed by any claim). -/
structure AResult where
  title : String
  category : Json
  summary : String
  tags : TagsVal

/-- Instagram-domain test `url.includes('instagram.com') || url.includes('instagr.am')`. -/
def isInstagramUrl (u : String) : Bool :=
  sContains u "instagram.com" || sContains u "instagr.am"

/-- Does the url branch take the Instagram special case?
(`content.url && (content.url.includes('instagram.com') || ...)`). -/
def igContent : AnalyzeContent → Bool
  | .obj (some u) _ _ _ => !u.isEmpty && isInstagramUrl u
  | _ => false

/-- Character class `[A-Za-z0-9_-]` of the post-id pattern. -/
def idChar (c : Char) : Bool :=
  ('A' ≤ c && c ≤ 'Z') || ('a' ≤ c && c ≤ 'z') || c.isDigit || c == '_' || c == '-'

/-- One attempted match of `\/(p|reel|reels)\/([A-Za-z0-9_-]+)` at a fixed
start position, with the regex's left-to-right alternation order. -/
def postMatchAt (cs : List Char) : Option (String × String) :=
  match cs with
  | '/' :: rest =>
    (postAlt "p" rest).orElse (fun _ => (postAlt "reel" rest).orElse (fun _ => postAlt "reels" rest))
  | _ => none
where
  postAlt (alt : String) (rest : List Char) : Option (String × String) :=
    if startsL alt.data rest then
      match rest.drop alt.length with
      | '/' :: idrest =>
        let idc := idrest.takeWhile idChar
        if idc.isEmpty then none else some (alt, String.mk idc)
      | _ => none
    else none

/-- Model of `url.match(/\/(p|reel|reels)\/([A-Za-z0-9_-]+)/)`: first matching
start position wins. -/
def postMatchScan : List Char → Option (String × String)
  | [] => none
  | c :: cs =>
    match postMatchAt (c :: cs) with
    | some r => some r
    | none => postMatchScan cs

/-- Expression `postMatch ? postMatch[1] : 'post'`. -/
def igPostType (u : String) : String :=
  ((postMatchScan u.data).map Prod.fst).getD "post"

def igMarker : List Char := " on Instagram: ".data

/-- Drop everything through the first occurrence of `igMarker`
(`.replace(/^.*? on Instagram: "?/, '')`, the marker part). -/
def dropThruMarker : List Char → Option (List Char)
  | [] => none
  | c :: cs =>
    if startsL igMarker (c :: cs) then some ((c :: cs).drop igMarker.length)
    else dropThruMarker cs

/-- The title-cleanup chain of the Instagram branch of /api/analyze:
`title.replace(/^.*? on Instagram: "?/, '').replace(/"$/, '').trim()`. -/
def igCleanTitle (t : String) : String :=
  let afterMark :=
    match dropThruMarker t.data with
    | some r => if startsL [dquote] r then r.drop 1 else r
    | none => t.data
  let noTrail :=
    if afterMark.getLast? = some dquote then afterMark.dropLast else afterMark
  String.mk (trimL noTrail)

/-- The Instagram special case of the url branch (src/index.js lines
361–394): bypasses the model and returns early. -/
def igBranch (u : String) (t d a : Option String) : AResult :=
  let postType := igPostType u
  let title0 := t.getD ""
  let descr0 := d.getD ""
  let title1 :=
    if title0 = "Instagram" ∨ sContains title0 "Instagram:" then igCleanTitle title0
    else title0
  let generic := title1.isEmpty || title1.length < 10
  let title2 :=
    if generic then (if postType = "reel" then "Instagram Reel" else "Instagram Post")
    else title1
  let descr :=
    if generic then
      match a with
      | some au => if au.isEmpty then "Saved from Instagram" else "Content by " ++ au
      | none => "Saved from Instagram"
    else descr0
  { title := jsTrunc title2 60
    category := .jstr "Entertainment".data
    summary := if descr.isEmpty then "Instagram content saved for later viewing" else descr
    tags := .arr [.jstr "instagram".data,
                  .jstr (if postType = "reel" then "video" else "photo").data,
                  .jstr "social-media".data] }

/-- Expression `(analysisResult.tags || []).slice(0, 5)`; `none` models a JS
TypeError (`.slice` on a number/boolean/object). -/
def tagsOf (v : Json) : Option TagsVal :=
  if !truthy v then some (.arr [])
  else
    match v with
    | .jarr xs => some (.arr (xs.take 5))
    | .jstr s => some (.str (String.mk (s.take 5)))
    | _ => none

/-- A thrown error is an absent value for the enclosing try-block. -/
def exceptToOption : Except Unit Json → Option Json
  | .ok j => some j
  | .error _ => none

/-- Method `.substring` demands a string; on any other value the JS call is a
TypeError (`none`). -/
def asStr : Json → Option (List Char)
  | .jstr s => some s
  | _ => none

/-- The model-call / parse / validate / truncate segment of the
/api/analyze try-block, shared by the image, non-Instagram url, and
text branches. `none` models a thrown exception (model error, parse
failure, "Invalid AI response format", or a TypeError on a non-string
field). -/
def mainExtract (modelResp : Except Unit String) : Option AResult :=
  match modelResp with
  | .error _ => none
  | .ok raw =>
    (exceptToOption (cleanJSONResponse raw)).bind fun j =>
      if !(truthy (jGet j "title") && truthy (jGet j "category") && truthy (jGet j "summary")) then
        none
      else
        (asStr (jGet j "title")).bind fun t =>
          (asStr (jGet j "summary")).bind fun s =>
            (tagsOf (jGet j "tags")).map fun tv =>
              { title := String.mk (t.take 60), category := jGet j "category",
                summary := String.mk (s.take 300), tags := tv }

/-- Expression `content.split('\n')[0]`. -/
def firstLine (s : String) : String :=
  String.mk (s.data.takeWhile (fun c => c != Char.ofNat 10))

/-- The catch-block of /api/analyze (src/index.js lines 507–537). The
`fallbackResponses` object literal is built *eagerly*, so its text
entry evaluates `content?.split('\n')` before any lookup: for
object-shaped `content` (the scraped record the url branch receives)
`content.split` is `undefined` and the call is a TypeError inside the
catch — the handler then sends no response at all (`none`), whatever
`contentType` says. For string content every entry evaluates fine
(`content?.title` on a string is `undefined`, so the url entry falls
back to its defaults) and `fallbackResponses[contentType] || {...}`
is sent. -/
def fallbackFor (contentType : String) (content : AnalyzeContent) : Option AResult :=
  match content with
  | .obj _ _ _ _ => none
  | .str c =>
    if contentType = "image" then
      some { title := "Saved Screenshot"
             category := .jstr "Other".data
             summary := "Screenshot saved successfully. AI analysis had an issue, but your content is safely stored."
             tags := .arr [.jstr "screenshot".data, .jstr "saved".data] }
    else if contentType = "url" then
      some { title := "Saved Link", category := .jstr "Other".data
             summary := "Link saved successfully for later reference."
             tags := .arr [.jstr "link".data, .jstr "saved".data] }
    else if contentType = "text" then
      let t :=
        let tt := jsTrunc (firstLine c) 60
        if tt.isEmpty then "Quick Note" else tt
      let s :=
        let ss := jsTrunc c 200
        if ss.isEmpty then "Note saved successfully." else ss
      some { title := t, category := .jstr "Other".data, summary := s
             tags := .arr [.jstr "note".data, .jstr "saved".data] }
    else
      some { title := "Saved Content", category := .jstr "Other".data
             summary := "Content saved successfully."
             tags := .arr [.jstr "saved".data] }

/-- POST /api/analyze. `modelResp` is the oracle for the OpenAI call
(`.error` = network/model failure; `.ok raw` = the raw completion
text). The result is the JSON body of the (always HTTP 200) response;
`none` models the single crashing corner of the catch block (see
`fallbackFor`). -/
def analyze (modelResp : Except Unit String) (contentType : String)
    (content : AnalyzeContent) : Option AResult :=
  if contentType = "url" ∧ igContent content then
    match content with
    | .obj u t d a => some (igBranch (u.getD "") t d a)
    | .str _ => none
  else
    let tryResult : Option AResult :=
      if contentType = "image" ∨ contentType = "url" ∨ contentType = "text" then
        mainExtract modelResp
      else none
    match tryResult with
    | some r => some r
    | none => fallbackFor contentType content

/-! ## Authentication middleware (src/index.js lines 70–108) -/

/-- Outcome of `authenticateUser`. -/
inductive AuthOutcome where
  | noToken
  | invalidToken
  | ok (email : String)

/-- Middleware `authenticateUser`: `verify` models `supabase.auth.getUser`
(token → verified email of the user record, `none` for invalid or
expired). A missing header or one without the `Bearer ` marker is
rejected before any verification. -/
def authenticateUser (verify : String → Option String) (authHeader : Option String) :
    AuthOutcome :=
  match authHeader with
  | none => .noToken
  | some h =>
    if !sStarts h "Bearer " then .noToken
    else
      match verify (String.mk (h.data.drop 7)) with
      | some email => .ok email
      | none => .invalidToken

/-! ## The saved_items store -/

/-- Type-specific `content_metadata`. -/
inductive Meta where
  | empty
  | textMeta (word_count char_count estimated_read_time : Nat)
  | imageMeta (storage_path uploaded_at : String) (file_size : Nat)
  | urlMeta (domain protocol : String)

/-- Record `preview_data` assembled for url items. -/
structure Preview where
  url : String
  domain : Option String
  title : String
  description : String
  favicon : Option String

/-- A row of the `saved_items` table. -/
structure Item where
  id : String
  user_id : String
  title : String
  content_type : String
  original_content : Option String
  original_image_url : Option String
  preview_data : Option Preview
  content_metadata : Meta
  ai_summary : String
  ai_category : Json
  ai_tags : TagsVal
  is_completed : Bool
  view_count : Option Nat
  last_viewed_at : Option String
  created_at : Nat
  updated_at : Option String

/-- A row of the `feature_votes` table. -/
structure FeatRow where
  id : String
  user_id : String
  feature_title : String
  feature_description : Option String
  votes_count : Int
  status : String
  category : String

/-- A row of the `user_votes` table. -/
structure VoteRow where
  user_id : String
  feature_id : String
  vote_type : String

/-- A store query issued by a handler, as recorded for the
authorization-scoping claims: its kind, and the `id` / `user_id`
equality filters it carries (if any). -/
structure StoreOp where
  table : String
  kind : String
  idFilter : Option String
  ownerFilter : Option String

/-- Response of the JSON endpoints (the fields claims inspect: status,
machine-readable auth code, which validation message, and the payload). -/
inductive HResp where
  | auth401 (code : String)
  | bad400 (tag : String)
  | notFound404
  | denied403
  | err500
  | dup409
  | okItems (items : List Item)
  | okItem (item : Item)
  | okVote (vote_change : Int)
  | okFeature (row : FeatRow)

/-- HTTP status of a response. -/
def HResp.status : HResp → Nat
  | .auth401 _ => 401
  | .bad400 _ => 400
  | .notFound404 => 404
  | .denied403 => 403
  | .err500 => 500
  | .dup409 => 409
  | _ => 200

/-! ## Request-body values (JS dynamic typing where a claim needs it) -/

/-- A JS value as it can arrive in a JSON request body. -/
inductive JVal where
  | vnull
  | vundef
  | vbool (b : Bool)
  | vnum (n : Int)
  | vstr (s : String)

/-- JS truthiness. -/
def JVal.truthyV : JVal → Bool
  | .vnull => false
  | .vundef => false
  | .vbool b => b
  | .vnum n => n != 0
  | .vstr s => !s.isEmpty

/-- JS `String(x)`. -/
def JVal.toStr : JVal → String
  | .vnull => "null"
  | .vundef => "undefined"
  | .vbool b => if b then "true" else "false"
  | .vnum n => toString n
  | .vstr s => s

/-- JS `typeof x === 'boolean'`. -/
def JVal.isBoolV : JVal → Bool
  | .vbool _ => true
  | _ => false

/-- JS `String.prototype.trim`. -/
def jsTrim (s : String) : String :=
  String.mk (trimL s.data)

/-- The strict UUID pattern
`^[0-9a-f]{8}-[0-9a-f]{4}-[0-9a-f]{4}-[0-9a-f]{4}-[0-9a-f]{12}$/i`. -/
def hexChar (c : Char) : Bool :=
  c.isDigit || ('a' ≤ c && c ≤ 'f') || ('A' ≤ c && c ≤ 'F')

def isUuid (s : String) : Bool :=
  let cs := s.data
  cs.length = 36 &&
    (List.range 36).all (fun i =>
      let c := cs.getD i ' '
      if i = 8 ∨ i = 13 ∨ i = 18 ∨ i = 23 then c = '-' else hexChar c)

/-! ## GET /api/saved-items (src/index.js lines 605–636) -/

/-- Insertion step for newest-first ordering. -/
def insertByCreated (it : Item) : List Item → List Item
  | [] => [it]
  | x :: xs =>
    if x.created_at ≤ it.created_at then it :: x :: xs
    else x :: insertByCreated it xs

/-- Ordering `order('created_at', { ascending: false })`. -/
def sortNewestFirst : List Item → List Item
  | [] => []
  | x :: xs => insertByCreated x (sortNewestFirst xs)

/-- Does an item's `ai_category` column equal the query string? -/
def catEq (v : Json) (c : String) : Bool :=
  match v with
  | .jstr s => s = c.data
  | _ => false

/-- GET /api/saved-items. Returns the response, the store afterwards,
and the trace of store queries issued. -/
def savedItems (verify : String → Option String) (hdr : Option String)
    (category : Option String) (st : List Item) :
    HResp × List Item × List StoreOp :=
  match authenticateUser verify hdr with
  | .noToken => (.auth401 "NO_AUTH_TOKEN", st, [])
  | .invalidToken => (.auth401 "INVALID_TOKEN", st, [])
  | .ok uid =>
    let base := st.filter (fun it => it.user_id = uid)
    let rows :=
      match category with
      | some c => if !c.isEmpty && c ≠ "all" then base.filter (fun it => catEq it.ai_category c) else base
      | none => base
    (.okItems (sortNewestFirst rows), st, [⟨"saved_items", "select", none, some uid⟩])

/-! ## PATCH /api/toggle-completion (src/index.js lines 847–917) -/

def toggleCompletion (verify : String → Option String) (hdr : Option String)
    (itemId completed : JVal) (now : String) (st : List Item) :
    HResp × List Item × List StoreOp :=
  match authenticateUser verify hdr with
  | .noToken => (.auth401 "NO_AUTH_TOKEN", st, [])
  | .invalidToken => (.auth401 "INVALID_TOKEN", st, [])
  | .ok uid =>
    if !itemId.truthyV || !completed.isBoolV then (.bad400 "itemId-and-completed-required", st, [])
    else
      let itemIdString := itemId.toStr
      if !isUuid itemIdString then (.bad400 "uuid-format-hint", st, [])
      else
        let cb := match completed with | .vbool b => b | _ => false
        let hit := st.filter (fun it => it.id = itemIdString ∧ it.user_id = uid)
        let st2 := st.map (fun it =>
          if it.id = itemIdString ∧ it.user_id = uid then
            { it with is_completed := cb, updated_at := some now }
          else it)
        let op : StoreOp := ⟨"saved_items", "update", some itemIdString, some uid⟩
        match hit with
        | [it] => (.okItem { it with is_completed := cb, updated_at := some now }, st2, [op])
        | _ => (.notFound404, st2, [op])

/-! ## PATCH /api/update-title (src/index.js lines 920–991) -/

def updateTitle (verify : String → Option String) (hdr : Option String)
    (itemId : JVal) (title : Option String) (now : String) (st : List Item) :
    HResp × List Item × List StoreOp :=
  match authenticateUser verify hdr with
  | .noToken => (.auth401 "NO_AUTH_TOKEN", st, [])
  | .invalidToken => (.auth401 "INVALID_TOKEN", st, [])
  | .ok uid =>
    if !itemId.truthyV then (.bad400 "itemId-required", st, [])
    else
      match title with
      | none => (.bad400 "title-empty", st, [])
      | some t =>
        if t.isEmpty then (.bad400 "title-empty", st, [])
        else if t.length > 100 then (.bad400 "title-long", st, [])
        else
          let itemIdString := itemId.toStr
          if !isUuid itemIdString then (.bad400 "uuid-format", st, [])
          else
            let newTitle := jsTrunc (jsTrim t) 100
            let hit := st.filter (fun it => it.id = itemIdString ∧ it.user_id = uid)
            let st2 := st.map (fun it =>
              if it.id = itemIdString ∧ it.user_id = uid then
                { it with title := newTitle, updated_at := some now }
              else it)
            let op : StoreOp := ⟨"saved_items", "update", some itemIdString, some uid⟩
            match hit with
            | [it] => (.okItem { it with title := newTitle, updated_at := some now }, st2, [op])
            | _ => (.notFound404, st2, [op])

/-! ## DELETE /api/delete-item (src/index.js lines 994–1021) -/

def deleteItem (verify : String → Option String) (hdr : Option String)
    (itemId : String) (st : List Item) :
    HResp × List Item × List StoreOp :=
  match authenticateUser verify hdr with
  | .noToken => (.auth401 "NO_AUTH_TOKEN", st, [])
  | .invalidToken => (.auth401 "INVALID_TOKEN", st, [])
  | .ok uid =>
    let hit := st.filter (fun it => it.id = itemId ∧ it.user_id = uid)
    let st2 := st.filter (fun it => ¬(it.id = itemId ∧ it.user_id = uid))
    let op : StoreOp := ⟨"saved_items", "delete", some itemId, some uid⟩
    match hit with
    | [it] => (.okItem it, st2, [op])
    | _ => (.notFound404, st2, [op])

/-! ## GET /api/item/:itemId (src/index.js lines 1077–1110) -/

def getItem (verify : String → Option String) (hdr : Option String)
    (itemId : String) (now : String) (st : List Item) :
    HResp × List Item × List StoreOp :=
  match authenticateUser verify hdr with
  | .noToken => (.auth401 "NO_AUTH_TOKEN", st, [])
  | .invalidToken => (.auth401 "INVALID_TOKEN", st, [])
  | .ok uid =>
    let hit := st.filter (fun it => it.id = itemId ∧ it.user_id = uid)
    let selOp : StoreOp := ⟨"saved_items", "select", some itemId, some uid⟩
    match hit with
    | [it] =>
      let st2 := st.map (fun x =>
        if x.id = itemId ∧ x.user_id = uid then
          { x with view_count := some (it.view_count.getD 0 + 1), last_viewed_at := some now }
        else x)
      (.okItem it, st2, [selOp, ⟨"saved_items", "update", some itemId, some uid⟩])
    | _ => (.notFound404, st, [selOp])

/-! ## POST /api/scrape (src/index.js lines 541–598) -/

/-- Basic scrape result shape. -/
structure ScrapeBasic where
  title : String
  description : String
  url : String

/-- Result of the dedicated Instagram scraper (the fields /api/scrape
passes through and the orchestrator later reads). -/
structure IgData where
  title : String
  description : String
  url : String
  author : Option String

/-- Oracle for the outbound HTTP fetch of /api/scrape: failure
(network error or non-ok status), or the fetched page's title tag,
`meta[name=description]`, `meta[property=og:description]`, and the
response's final url. -/
inductive FetchOutcome where
  | fail
  | page (titleTag metaDescr ogDescr : Option String) (finalUrl : String)

/-- Body of a /api/scrape response (the Instagram path forwards the
dedicated scraper's JSON unchanged). -/
inductive ScrapeResp where
  | basic (r : ScrapeBasic)
  | ig (d : IgData)

/-- Expression `url.startsWith('http') ? url : 'https://' + url`. -/
def scrapeFullUrl (url : String) : String :=
  if sStarts url "http" then url else "https://" ++ url

/-- POST /api/scrape. `igCall` is the oracle for the internal call to
/api/scrape-instagram; `fetch` for the direct page fetch. Returns
(status, body). -/
def scrape (igCall : Except Unit IgData) (fetch : FetchOutcome) (url : String) :
    Nat × ScrapeResp :=
  let fullUrl := scrapeFullUrl url
  if isInstagramUrl fullUrl then
    match igCall with
    | .ok d => (200, .ig d)
    | .error _ => (200, .basic ⟨"Saved Link", "Link saved: " ++ url, url⟩)
  else
    match fetch with
    | .fail => (200, .basic ⟨"Saved Link", "Link saved: " ++ url, url⟩)
    | .page t md ogd finalUrl =>
      let title :=
        match t with
        | some tt =>
          let v := jsTrunc (jsTrim tt) 100
          if v.isEmpty then "Untitled" else v
        | none => "Untitled"
      let d1 := md.map (fun s => jsTrunc (jsTrim s) 300)
      let d2 := ogd.map (fun s => jsTrunc (jsTrim s) 300)
      let descr :=
        match d1 with
        | some v =>
          if !v.isEmpty then v
          else
            match d2 with
            | some w => if !w.isEmpty then w else "No description"
            | none => "No description"
        | none =>
          match d2 with
          | some w => if !w.isEmpty then w else "No description"
          | none => "No description"
      (200, .basic ⟨title, descr, finalUrl⟩)

/-- Modelled from the spec: "a missing scheme" — a URL scheme per the
generic URI syntax is a leading letter followed by letters, digits,
`+`, `-` or `.`, terminated by a colon. This definition follows the
spec's words and is compared against the code's `startsWith('http')`
test. -/
def schemeChar (c : Char) : Bool :=
  c.isAlpha || c.isDigit || c == '+' || c == '-' || c == '.'

def hasUrlScheme (u : String) : Bool :=
  match u.data with
  | [] => false
  | c :: _ =>
    c.isAlpha && startsL [':'] (u.data.drop (u.data.takeWhile schemeChar).length)

/-! ## POST /api/process-content (src/index.js lines 689–844) -/

/-- The fields that /api/analyze is called with from the url branch:
`{ content: scrapedData, contentType: 'url' }`. -/
def analyzeContentOf : ScrapeResp → AnalyzeContent
  | .basic r => .obj (some r.url) (some r.title) (some r.description) none
  | .ig d => .obj (some d.url) (some d.title) (some d.description) d.author

/-- The `{title, description, url}` fields of a scrape body, as the
orchestrator reads them. -/
def scrapedOf : ScrapeResp → ScrapeBasic
  | .basic r => r
  | .ig d => ⟨d.title, d.description, d.url⟩

/-- Minimal model of `new URL(u)`: requires `scheme://host…`; returns
the protocol (with trailing colon) and hostname; `none` models the
thrown TypeError the handler catches. -/
def splitAtSub : List Char → List Char → Option (List Char × List Char)
  | cs, pat =>
    if startsL pat cs then some ([], cs.drop pat.length)
    else
      match cs with
      | [] => none
      | c :: rest => (splitAtSub rest pat).map (fun p => (c :: p.1, p.2))

def parseUrlParts (u : String) : Option (String × String) :=
  match splitAtSub u.data "://".data with
  | none => none
  | some (schemePart, rest) =>
    match schemePart with
    | [] => none
    | c :: cs =>
      if c.isAlpha ∧ (c :: cs).all schemeChar then
        let hostname := rest.takeWhile (fun x => x != '/' && x != ':' && x != '?' && x != '#')
        if hostname.isEmpty then none
        else some (String.mk (schemePart ++ [':']), String.mk hostname)
      else none

/-- JS `Math.round(content.length * 0.75)` (exact: 0.75 is a dyadic
rational, and JS rounds half away from zero upward here). -/
def fileSizeOf (len : Nat) : Nat :=
  (3 * len + 2) / 4

/-- Run counter: `inRun` records whether the previous character was
part of a non-whitespace run. -/
def runsAux : Bool → List Char → Nat
  | _, [] => 0
  | inRun, c :: cs =>
    if jsWs c then runsAux false cs
    else (if inRun then 0 else 1) + runsAux true cs

/-- Number of maximal non-whitespace runs. -/
def nonWsRuns (cs : List Char) : Nat :=
  runsAux false cs

/-- Expression `content.trim().split(/\s+/).length`. For empty or all-whitespace
content this is 1, because `''.split(/\s+/)` is `['']`. -/
def jsWordCount (content : String) : Nat :=
  let t := trimL content.data
  if t.isEmpty then 1 else nonWsRuns t

/-- Modelled from the spec: "the whitespace-delimited word count of the
trimmed content" — the number of whitespace-delimited words (maximal
non-whitespace runs) in the trimmed content; 0 for empty content. -/
def specWordCount (content : String) : Nat :=
  nonWsRuns (trimL content.data)

/-- JS `Math.max(1, Math.ceil(words / 200))`. -/
def readTime (words : Nat) : Nat :=
  max 1 ((words + 199) / 200)

/-- POST /api/process-content. Oracles: `upload` for the internal
storage upload (url, path); `modelResp` for the OpenAI call inside the
internal /api/analyze call; `igCall`/`fetch` for the internal
/api/scrape call; `insertOk` for the database insert. `genId` and
`createdTs` are the id/timestamp the store generates for the new row,
`now` the handler's clock. -/
def processContent (verify : String → Option String) (hdr : Option String)
    (contentType : String) (content : String)
    (upload : Except Unit (String × String)) (modelResp : Except Unit String)
    (igCall : Except Unit IgData) (fetch : FetchOutcome)
    (insertOk : Bool) (now genId : String) (createdTs : Nat)
    (st : List Item) : HResp × List Item × List StoreOp :=
  match authenticateUser verify hdr with
  | .noToken => (.auth401 "NO_AUTH_TOKEN", st, [])
  | .invalidToken => (.auth401 "INVALID_TOKEN", st, [])
  | .ok uid =>
    let step :
        Option AResult × Option String × Option Preview × Meta × List StoreOp :=
      if contentType = "image" then
        let (imageUrl, md, ops0) :=
          match upload with
          | .ok (u, p) =>
            (some u, Meta.imageMeta p now (fileSizeOf content.length),
             [(⟨"saved-images", "upload", none, some uid⟩ : StoreOp)])
          | .error _ => (none, Meta.empty, [(⟨"saved-images", "upload", none, some uid⟩ : StoreOp)])
        (analyze modelResp "image" (.str content), imageUrl, none, md, ops0)
      else if contentType = "url" then
        let sres := (scrape igCall fetch content).2
        let sd := scrapedOf sres
        let (preview, md) :=
          match parseUrlParts sd.url with
          | some (protocol, hostname) =>
            ((⟨sd.url, some hostname, sd.title, sd.description,
               some ("https://www.google.com/s2/favicons?domain=" ++ hostname ++ "&sz=64")⟩ : Preview),
             Meta.urlMeta hostname protocol)
          | none => ((⟨content, none, sd.title, sd.description, none⟩ : Preview), Meta.empty)
        (analyze modelResp "url" (analyzeContentOf sres), none, some preview, md, [])
      else
        let md := Meta.textMeta (jsWordCount content) content.length (readTime (jsWordCount content))
        (analyze modelResp "text" (.str content), none, none, md, [])
    match step with
    | (none, _, _, _, ops0) => (.err500, st, ops0)
    | (some pc, imageUrl, preview, md, ops0) =>
      let row : Item :=
        { id := genId, user_id := uid, title := pc.title
          content_type := contentType
          original_content := if contentType = "image" then none else some content
          original_image_url := imageUrl
          preview_data := preview
          content_metadata := md
          ai_summary := pc.summary, ai_category := pc.category, ai_tags := pc.tags
          is_completed := false, view_count := some 0, last_viewed_at := none
          created_at := createdTs, updated_at := none }
      let ops := ops0 ++ [(⟨"saved_items", "insert", none, none⟩ : StoreOp)]
      if insertOk then (.okItem row, st ++ [row], ops)
      else (.err500, st, ops)

/-- The row the text branch of /api/process-content inserts for a given
analysis result `pc`. -/
def textRow (uid content gid : String) (ts : Nat) (pc : AResult) : Item :=
  { id := gid, user_id := uid, title := pc.title, content_type := "text",
    original_content := some content, original_image_url := none, preview_data := none,
    content_metadata := .textMeta (jsWordCount content) content.length
      (readTime (jsWordCount content)),
    ai_summary := pc.summary, ai_category := pc.category, ai_tags := pc.tags,
    is_completed := false, view_count := some 0, last_viewed_at := none,
    created_at := ts, updated_at := none }

/-! ## POST /api/features/vote (src/index.js lines 1301–1394) -/

/-- The voting subsystem's store: `user_votes` as a map
(user, feature) → vote_type, and the `votes_count` column of
`feature_votes` as a map feature → count. -/
structure VoteState where
  votes : String → String → Option String
  counts : String → Option Int

/-- POST /api/features/vote. `rpcOk` is whether the store's
`increment_votes` RPC succeeds; on failure the handler re-reads the
count and writes `Math.max(0, old + voteChange)`. The RPC itself is not
in this repository; modelled from the spec: "an atomic increment RPC"
adding `increment_by` to the feature's vote count. -/
def voteFeature (verify : String → Option String) (hdr : Option String)
    (feature_id vote_type : String) (rpcOk : Bool) (st : VoteState) :
    HResp × VoteState :=
  match authenticateUser verify hdr with
  | .noToken => (.auth401 "NO_AUTH_TOKEN", st)
  | .invalidToken => (.auth401 "INVALID_TOKEN", st)
  | .ok uid =>
    if feature_id.isEmpty then (.bad400 "feature-id-required", st)
    else if vote_type ≠ "upvote" ∧ vote_type ≠ "downvote" then (.bad400 "vote-type", st)
    else
      let existing := st.votes uid feature_id
      let voteChange : Int :=
        match existing with
        | some vt =>
          if vt = vote_type then (if vote_type = "upvote" then -1 else 1)
          else (if vote_type = "upvote" then 2 else -2)
        | none => if vote_type = "upvote" then 1 else -1
      let votes2 : String → String → Option String :=
        match existing with
        | some vt =>
          if vt = vote_type then
            fun u f => if u = uid ∧ f = feature_id then none else st.votes u f
          else
            fun u f => if u = uid ∧ f = feature_id then some vote_type else st.votes u f
        | none =>
          fun u f => if u = uid ∧ f = feature_id then some vote_type else st.votes u f
      let counts2 : String → Option Int :=
        if rpcOk then
          fun f => if f = feature_id then (st.counts f).map (· + voteChange) else st.counts f
        else
          match st.counts feature_id with
          | some c => fun f => if f = feature_id then some (max 0 (c + voteChange)) else st.counts f
          | none => st.counts
      (.okVote voteChange, ⟨votes2, counts2⟩)

/-! ## POST /api/features (src/index.js lines 1232–1298) -/

/-- Suffixes of a char list (including the list itself and `[]`). -/
def suffixes : List Char → List (List Char)
  | [] => [[]]
  | c :: cs => (c :: cs) :: suffixes cs

/-- SQL LIKE pattern matching with Postgres's default escape character:
a backslash makes the following pattern character match literally, `%`
matches any sequence, `_` any single character, all else literally. A
pattern ending in a lone escape character is a Postgres error; the
handler destructures only `data` from the query result, so that error
is swallowed and no existing title matches (`false` here). -/
def likeMatch : List Char → List Char → Bool
  | [], t => t.isEmpty
  | q :: ps, t =>
    if q = '\\' then
      match ps with
      | [] => false
      | e :: ps2 =>
        match t with
        | [] => false
        | c :: ts => (e = c) && likeMatch ps2 ts
    else if q = '%' then (suffixes t).any (fun t2 => likeMatch ps t2)
    else
      match t with
      | [] => false
      | c :: ts => (q = '_' ∨ q = c) && likeMatch ps ts

def toLowerL (cs : List Char) : List Char :=
  cs.map Char.toLower

/-- Postgres `ILIKE`: case-folded LIKE. -/
def ilikeMatch (pattern text : String) : Bool :=
  likeMatch (toLowerL pattern.data) (toLowerL text.data)

/-- Case-insensitive substring containment (the spec's reading of the
duplicate check). -/
def hasSubCI (text pat : String) : Bool :=
  hasSubL (toLowerL text.data) (toLowerL pat.data)

/-- Expression `description?.trim() || null`. -/
def descrTrim : Option String → Option String
  | some d => let dt := jsTrim d; if dt.isEmpty then none else some dt
  | none => none

/-- The feature-suggestion subsystem's store. -/
structure FeatState where
  features : List FeatRow
  votes : List VoteRow

/-- POST /api/features. `genId` is the id the store generates for the
inserted row. -/
def postFeature (verify : String → Option String) (hdr : Option String)
    (title description : Option String) (genId : String) (st : FeatState) :
    HResp × FeatState :=
  match authenticateUser verify hdr with
  | .noToken => (.auth401 "NO_AUTH_TOKEN", st)
  | .invalidToken => (.auth401 "INVALID_TOKEN", st)
  | .ok uid =>
    let titleBad :=
      match title with
      | none => true
      | some t => (jsTrim t).isEmpty
    if titleBad then (.bad400 "title-required", st)
    else
      match title with
      | none => (.bad400 "title-required", st)
      | some t =>
        if t.length > 100 then (.bad400 "title-long", st)
        else if (match description with | some d => decide (d.length > 500) | none => false) then
          (.bad400 "description-long", st)
        else
          let pat := "%" ++ jsTrim t ++ "%"
          if st.features.any (fun f => ilikeMatch pat f.feature_title) then (.dup409, st)
          else
            let row : FeatRow :=
              ⟨genId, uid, jsTrim t, descrTrim description, 1, "suggested", "other"⟩
            let vrow : VoteRow := ⟨uid, genId, "upvote"⟩
            (.okFeature row, ⟨st.features ++ [row], st.votes ++ [vrow]⟩)

/-! ## Concrete instances used by witnesses and counterexamples -/

/-- A concrete identity provider: token `tok` belongs to `u@x.com`. -/
def demoVerify : String → Option String :=
  fun t => if t = "tok" then some "u@x.com" else none

/-- A request carries no bearer credential: no Authorization header, or
one without the `Bearer ` marker. -/
def noBearer (hdr : Option String) : Bool :=
  match hdr with
  | none => true
  | some h => !sStarts h "Bearer "

/-- No SQL LIKE wildcard characters and no escape character. -/
def noWild (cs : List Char) : Bool :=
  cs.all (fun c => !(c == '%' || c == '_' || c == '\\'))

def c4input : String := "\x7b\"a\": 1\x7d x \x7b\"b\": 2\x7d"

/-- The /api/analyze text fallback on content `"hello"`. -/
def fbHello : AResult :=
  { title := "hello", category := .jstr "Other".data, summary := "hello"
    tags := .arr [.jstr "note".data, .jstr "saved".data] }

/-- An Instagram post whose scraped description has 301 characters. -/
def igLongContent : AnalyzeContent :=
  .obj (some "https://instagram.com/p/AbC123") (some "Wonderful Cat Reel Compilation")
    (some (String.mk (List.replicate 301 'a'))) none

/-- A saved item owned by `owner@x.com` (a different identity than the
one `demoVerify` authenticates). -/
def demoItem : Item where
  id := "aaaaaaaa-bbbb-cccc-dddd-eeeeffff0000"
  user_id := "owner@x.com"
  title := "T"
  content_type := "text"
  original_content := some "c"
  original_image_url := none
  preview_data := none
  content_metadata := .empty
  ai_summary := "s"
  ai_category := .jstr "Other".data
  ai_tags := .arr []
  is_completed := false
  view_count := some 3
  last_viewed_at := none
  created_at := 5
  updated_at := none

/-- The same item owned by the authenticated caller `u@x.com`. -/
def demoOwnItem : Item :=
  { demoItem with user_id := "u@x.com" }

/-- An existing feature suggestion titled `Dark Mode Support`. -/
def demoFeature : FeatRow :=
  ⟨"f1", "a@x", "Dark Mode Support", none, 3, "suggested", "other"⟩

/-- A vote store with no votes and one feature `F` at count 7. -/
def demoVotes : VoteState :=
  ⟨fun _ _ => none, fun f => if f = "F" then some 7 else none⟩

/-- A second identity provider: token `tok2` belongs to `other@x.com`,
and `tok` still belongs to `u@x.com`. -/
def demoVerify2 : String → Option String :=
  fun t => if t = "tok2" then some "other@x.com" else demoVerify t

/-- A vote store with no votes and one feature `F` at count 0. -/
def zeroVotes : VoteState :=
  ⟨fun _ _ => none, fun f => if f = "F" then some 0 else none⟩

/-! # Theorems -/

/-! ## Shared lemmas -/

theorem length_mk (l : List Char) : (String.mk l).length = l.length := rfl

theorem jsTrunc_length_le (s : String) (n : Nat) : (jsTrunc s n).length ≤ n := by
  show (s.data.take n).length ≤ n
  rw [List.length_take]
  exact min_le_left _ _

theorem map_if_id {α : Type} (l : List α) (p : α → Prop) [DecidablePred p] (f : α → α)
    (h : ∀ x ∈ l, ¬ p x) : (l.map fun x => if p x then f x else x) = l := by
  induction l with
  | nil => rfl
  | cons a as ih =>
    simp only [List.map_cons, if_neg (h a (List.mem_cons_self a as))]
    rw [ih fun x hx => h x (List.mem_cons_of_mem a hx)]

/-! ## C4: cleanJSONResponse -/

/-- C4 (amended claim, proved): for every raw text, `cleanJSONResponse`
deletes literal six-backtick runs and trims the result, attempts a
direct structured parse, on parse failure re-parses the substring
extending from the first `{` to the last `}` of the cleaned text (the
greedy regex match — not the first *balanced* group), and throws
exactly when the input is empty or both parse attempts fail. It is a
pure function, hence deterministic and side-effect free. -/
theorem cleanJSONResponse_amended (r : String) :
    (r = "" → cleanJSONResponse r = .error ()) ∧
    (r ≠ "" → ∀ j, parseJsonL (cleanedOf r) = some j → cleanJSONResponse r = .ok j) ∧
    (r ≠ "" → parseJsonL (cleanedOf r) = none →
      cleanJSONResponse r =
        (match (braceSub (cleanedOf r)).bind parseJsonL with
         | some j => Except.ok j
         | none => Except.error ())) ∧
    (exOk (cleanJSONResponse r) = false ↔
      (r = "" ∨ (parseJsonL (cleanedOf r) = none ∧
                 (braceSub (cleanedOf r)).bind parseJsonL = none))) := by
  by_cases hr : r = ""
  · refine ⟨fun _ => by simp [cleanJSONResponse, hr], fun h => absurd hr h,
      fun h => absurd hr h, ?_⟩
    simp [cleanJSONResponse, hr, exOk]
  · refine ⟨fun h => absurd h hr, ?_, ?_, ?_⟩
    · intro _ j hj
      simp [cleanJSONResponse, hr, hj]
    · intro _ hp
      simp only [cleanJSONResponse, if_neg hr, hp]
      cases hb : braceSub (cleanedOf r) with
      | none => simp [hb, Option.bind]
      | some sub =>
        cases hs : parseJsonL sub with
        | none => simp [hb, hs, Option.bind]
        | some j => simp [hb, hs, Option.bind]
    · simp only [cleanJSONResponse, if_neg hr]
      cases hp : parseJsonL (cleanedOf r) with
      | some j => simp [exOk, hr, hp]
      | none =>
        cases hb : braceSub (cleanedOf r) with
        | none => simp [exOk, hr, hp, hb, Option.bind]
        | some sub =>
          cases hs : parseJsonL sub with
          | none => simp [exOk, hr, hp, hb, hs, Option.bind]
          | some j => simp [exOk, hr, hp, hb, hs, Option.bind]

/-- C4 witness: on a clean JSON object the direct parse succeeds. -/
theorem cleanJSONResponse_amended_witness :
    cleanJSONResponse "\x7b\"a\":1\x7d" = .ok (.jobj [("a", .jnum ['1'])]) :=
  (cleanJSONResponse_amended "\x7b\"a\":1\x7d").2.1 (by decide) _ rfl

/-- C4 counterexample: on `{"a": 1} x {"b": 2}` the code throws
(the greedy first-`{`-to-last-`}` substring does not parse), although
the *first balanced* `{...}` substring parses fine — so the fallback is
not "extract the first balanced `{...}` substring and re-parse". -/
theorem cleanJSONResponse_greedy_not_balanced :
    exOk (cleanJSONResponse c4input) = false ∧
    ((firstBalancedBrace (cleanedOf c4input)).bind parseJsonL).isSome = true := by
  exact ⟨rfl, rfl⟩

/-! ## C6: POST /api/scrape -/

/-- C6 (amended claim, proved): /api/scrape always answers HTTP 200; a
url that does not start with the four characters `http` is prefixed
with `https://` (this is the code's scheme test — see the
counterexample for a scheme-less url it does not normalize); and on
fetch failure (or Instagram sub-scrape failure) the body is exactly
`{title: "Saved Link", description: "Link saved: <raw url>", url: <raw url>}`. -/
theorem scrape_amended (ig : Except Unit IgData) (f : FetchOutcome) (url : String) :
    (scrape ig f url).1 = 200 ∧
    (sStarts url "http" = false → scrapeFullUrl url = "https://" ++ url) ∧
    ((isInstagramUrl (scrapeFullUrl url) = false ∧ f = .fail) ∨
     (isInstagramUrl (scrapeFullUrl url) = true ∧ ig = .error ()) →
      (scrape ig f url).2 = .basic ⟨"Saved Link", "Link saved: " ++ url, url⟩) := by
  refine ⟨?_, ?_, ?_⟩
  · unfold scrape
    by_cases hig : isInstagramUrl (scrapeFullUrl url) = true
    · cases ig <;> simp [hig]
    · cases f <;> simp [hig]
  · intro h
    simp [scrapeFullUrl, h]
  · rintro (⟨hig, hf⟩ | ⟨hig, hg⟩)
    · subst hf; simp [scrape, hig]
    · subst hg; simp [scrape, hig]

/-- C6 witness: the spec's scenario — `example.com` is prefixed with
`https://` and a failed fetch yields the degraded 200 body. -/
theorem scrape_amended_witness :
    (scrape (.error ()) .fail "example.com").1 = 200 ∧
    scrapeFullUrl "example.com" = "https://" ++ "example.com" ∧
    (scrape (.error ()) .fail "example.com").2 =
      .basic ⟨"Saved Link", "Link saved: " ++ "example.com", "example.com"⟩ := by
  have h := scrape_amended (.error ()) .fail "example.com"
  exact ⟨h.1, h.2.1 (by decide), h.2.2 (Or.inl ⟨by decide, rfl⟩)⟩

/-- C6 counterexample: `httparchive.org` has no URL scheme, yet the code
does not prefix it with `https://` (its test is `startsWith('http')`,
not "has a scheme"). -/
theorem scrape_scheme_not_normalized :
    hasUrlScheme "httparchive.org" = false ∧
    scrapeFullUrl "httparchive.org" = "httparchive.org" ∧
    ("httparchive.org" : String) ≠ "https://" ++ "httparchive.org" := by
  exact ⟨rfl, rfl, by decide⟩

/-! ## C2, C3: /api/analyze output bounds and fallback policy -/

theorem igBranch_title_le (u : String) (t d a : Option String) :
    (igBranch u t d a).title.length ≤ 60 := by
  show (jsTrunc _ 60).length ≤ 60
  exact jsTrunc_length_le _ _

theorem igBranch_tags_len (u : String) (t d a : Option String) :
    tagsLen (igBranch u t d a).tags = 3 := rfl

theorem tagsOf_le (v : Json) (tv : TagsVal) (h : tagsOf v = some tv) :
    tagsLen tv ≤ 5 := by
  unfold tagsOf at h
  split at h
  · injection h with h
    subst h
    simp [tagsLen]
  · cases v with
    | jarr xs =>
      injection h with h
      subst h
      show (xs.take 5).length ≤ 5
      rw [List.length_take]
      exact min_le_left _ _
    | jstr s =>
      injection h with h
      subst h
      show (String.mk (s.take 5)).length ≤ 5
      rw [length_mk, List.length_take]
      exact min_le_left _ _
    | jnull => exact absurd h (by simp)
    | jbool b => exact absurd h (by simp)
    | jnum n => exact absurd h (by simp)
    | jobj fs => exact absurd h (by simp)

theorem mainExtract_bounds (mr : Except Unit String) (r : AResult)
    (h : mainExtract mr = some r) :
    r.title.length ≤ 60 ∧ r.summary.length ≤ 300 ∧ tagsLen r.tags ≤ 5 := by
  cases mr with
  | error e => simp [mainExtract] at h
  | ok raw =>
    simp only [mainExtract] at h
    rw [Option.bind_eq_some] at h
    obtain ⟨j, hj, h⟩ := h
    split at h
    · simp at h
    · rw [Option.bind_eq_some] at h
      obtain ⟨t, ht, h⟩ := h
      rw [Option.bind_eq_some] at h
      obtain ⟨s, hs, h⟩ := h
      rw [Option.map_eq_some'] at h
      obtain ⟨tv, htv, h⟩ := h
      subst h
      refine ⟨?_, ?_, tagsOf_le _ _ htv⟩
      · show (t.take 60).length ≤ 60
        rw [List.length_take]
        exact min_le_left _ _
      · show (s.take 300).length ≤ 300
        rw [List.length_take]
        exact min_le_left _ _

theorem fallbackFor_bounds (ct : String) (c : AnalyzeContent) (r : AResult)
    (h : fallbackFor ct c = some r) :
    r.title.length ≤ 60 ∧ r.summary.length ≤ 300 ∧ tagsLen r.tags ≤ 5 := by
  cases c with
  | obj u t d a => exact absurd h (by simp [fallbackFor])
  | str s =>
    simp only [fallbackFor] at h
    split at h
    · injection h with h
      subst h
      exact ⟨by decide, by decide, by decide⟩
    · split at h
      · injection h with h
        subst h
        exact ⟨by decide, by decide, by decide⟩
      · split at h
        · injection h with h
          subst h
          refine ⟨?_, ?_, ?_⟩
          · show (if (jsTrunc (firstLine s) 60).isEmpty then "Quick Note"
                  else jsTrunc (firstLine s) 60).length ≤ 60
            split
            · decide
            · exact jsTrunc_length_le _ _
          · show (if (jsTrunc s 200).isEmpty then "Note saved successfully."
                  else jsTrunc s 200).length ≤ 300
            split
            · decide
            · exact le_trans (jsTrunc_length_le _ _) (by decide)
          · show tagsLen (.arr [.jstr "note".data, .jstr "saved".data]) ≤ 5
            decide
        · injection h with h
          subst h
          exact ⟨by decide, by decide, by decide⟩

/-- C2 (amended claim, proved): every branch of POST /api/analyze
(image, url with and without the Instagram special case, text, and all
failure fallbacks) returns a title of at most 60 characters and at
most 5 tags; the summary is at most 300 characters in every branch
except the Instagram special case, which passes the scraped
description through untruncated (see the counterexample). -/
theorem analyze_bounds_amended (mr : Except Unit String) (ct : String)
    (content : AnalyzeContent) (r : AResult) (h : analyze mr ct content = some r) :
    r.title.length ≤ 60 ∧ tagsLen r.tags ≤ 5 ∧
      (¬(ct = "url" ∧ igContent content = true) → r.summary.length ≤ 300) := by
  unfold analyze at h
  split at h
  case isTrue hig =>
    cases content with
    | str s => exact absurd h (by simp)
    | obj u t d a =>
      injection h with h
      subst h
      exact ⟨igBranch_title_le _ _ _ _, by rw [igBranch_tags_len]; decide,
        fun hc => absurd hig hc⟩
  case isFalse hig =>
    cases hm : (if ct = "image" ∨ ct = "url" ∨ ct = "text" then mainExtract mr else none) with
    | some r0 =>
      rw [hm] at h
      injection h with h
      subst h
      split at hm
      · have hb := mainExtract_bounds mr r0 hm
        exact ⟨hb.1, hb.2.2, fun _ => hb.2.1⟩
      · exact absurd hm (by simp)
    | none =>
      rw [hm] at h
      have hb := fallbackFor_bounds ct content r h
      exact ⟨hb.1, hb.2.2, fun _ => hb.2.1⟩

/-- C2 witness: a concrete run (text fallback on `"hello"`) satisfying
the bounds. -/
theorem analyze_bounds_amended_witness :
    fbHello.title.length ≤ 60 ∧ tagsLen fbHello.tags ≤ 5 ∧
      (¬(("text" : String) = "url" ∧ igContent (.str "hello") = true) →
        fbHello.summary.length ≤ 300) :=
  analyze_bounds_amended (.error ()) "text" (.str "hello") fbHello rfl

set_option maxRecDepth 8000 in
/-- C2 counterexample: the Instagram branch returns the scraped
description as the summary without truncation — here 301 characters,
violating the claimed 300-character bound. -/
theorem analyze_instagram_summary_unbounded :
    (analyze (.error ()) "url" igLongContent).map (fun r => r.summary.length) = some 301 ∧
      ¬(301 ≤ 300) :=
  ⟨rfl, by decide⟩

/-- Fallback on a text string always produces a record. -/
theorem fallbackFor_text_str (c : String) : ∃ r, fallbackFor "text" (.str c) = some r :=
  ⟨_, rfl⟩

/-- C3 (amended claim, proved): when the extraction stage throws and
the content is a string — the shape the pipeline sends for image and
text — /api/analyze still answers HTTP success with the deterministic
type-specific fallback record: category "Other", exactly two generic
tags, and the fixed title "Saved Screenshot" for image (for text the
title is derived from the content's first line), and the orchestrator
still persists the item carrying the fallback fields. For a url-type
failure, however, the content is the scraped record (an object), and
building the eager `fallbackResponses` literal itself throws
(`content?.split` is not a function), so no fallback response is sent
at all. -/
theorem analyze_fallback_amended :
    (∀ (mr : Except Unit String) (ct : String) (c : String),
      mainExtract mr = none →
      (ct = "image" ∨ ct = "text") →
      analyze mr ct (.str c) = fallbackFor ct (.str c) ∧
      ∃ r, fallbackFor ct (.str c) = some r ∧
        r.category = .jstr "Other".data ∧ tagsLen r.tags = 2 ∧
        (ct = "image" → r.title = "Saved Screenshot")) ∧
    (∀ (mr : Except Unit String) (u t d a : Option String),
      mainExtract mr = none →
      ¬(igContent (.obj u t d a) = true) →
      analyze mr "url" (.obj u t d a) = none) ∧
    (∀ (vfv : String → Option String) (hdr : Option String) (uid : String)
       (content now gid : String) (mr : Except Unit String)
       (up : Except Unit (String × String)) (ig : Except Unit IgData)
       (f : FetchOutcome) (ts : Nat) (st : List Item),
      authenticateUser vfv hdr = .ok uid →
      mainExtract mr = none →
      ∃ fb row,
        fallbackFor "text" (.str content) = some fb ∧
        processContent vfv hdr "text" content up mr ig f true now gid ts st =
          (.okItem row, st ++ [row], [⟨"saved_items", "insert", none, none⟩]) ∧
        row.title = fb.title ∧ row.ai_category = fb.category ∧
        row.ai_tags = fb.tags ∧ row.user_id = uid) := by
  refine ⟨?_, ?_, ?_⟩
  · intro mr ct c hm hct
    have hnig : ¬(ct = "url" ∧ igContent (.str c) = true) := by
      rintro ⟨-, hc⟩
      simp [igContent] at hc
    have hct3 : ct = "image" ∨ ct = "url" ∨ ct = "text" := hct.imp id Or.inr
    have hfb : ∃ r, fallbackFor ct (.str c) = some r := by
      rcases hct with h1 | h1 <;> subst h1
      · exact ⟨_, rfl⟩
      · exact ⟨_, rfl⟩
    obtain ⟨r, hr⟩ := hfb
    have han : analyze mr ct (.str c) = fallbackFor ct (.str c) := by
      unfold analyze
      rw [if_neg hnig, if_pos hct3, hm, hr]
    refine ⟨han, r, hr, ?_, ?_, ?_⟩
    · revert hr
      rcases hct with h1 | h1 <;> subst h1 <;>
        (intro hr; injection hr with hr; subst hr; rfl)
    · revert hr
      rcases hct with h1 | h1 <;> subst h1 <;>
        (intro hr; injection hr with hr; subst hr; rfl)
    · intro h1
      subst h1
      revert hr
      intro hr
      injection hr with hr
      subst hr
      rfl
  · intro mr u t d a hm hnig
    unfold analyze
    rw [if_neg (fun hc => hnig hc.2), if_pos (by decide), hm]
    rfl
  · intro vfv hdr uid content now gid mr up ig f ts st hauth hm
    obtain ⟨fb, hfb⟩ := fallbackFor_text_str content
    have han : analyze mr "text" (.str content) = some fb := by
      unfold analyze
      rw [if_neg (fun hc => absurd hc.1 (by decide)), if_pos (by decide), hm, hfb]
    refine ⟨fb,
      { id := gid, user_id := uid, title := fb.title, content_type := "text",
        original_content := some content, original_image_url := none,
        preview_data := none,
        content_metadata := Meta.textMeta (jsWordCount content) content.length
          (readTime (jsWordCount content)),
        ai_summary := fb.summary, ai_category := fb.category, ai_tags := fb.tags,
        is_completed := false, view_count := some 0, last_viewed_at := none,
        created_at := ts, updated_at := none },
      hfb, ?_, rfl, rfl, rfl, rfl⟩
    simp only [processContent, hauth]
    rw [if_neg (show ¬("text" : String) = "image" by decide),
      if_neg (show ¬("text" : String) = "url" by decide), han]
    rfl

/-- C3 witness: with a failing model, a text ingestion still answers
with the fallback record and the orchestrator persists it, while a
url ingestion of a (non-Instagram) scraped record yields no response. -/
theorem analyze_fallback_amended_witness :
    (analyze (.error ()) "text" (.str "hello") = fallbackFor "text" (.str "hello") ∧
      ∃ r, fallbackFor "text" (.str "hello") = some r ∧
        r.category = .jstr "Other".data ∧ tagsLen r.tags = 2 ∧
        (("text" : String) = "image" → r.title = "Saved Screenshot")) ∧
    analyze (.error ()) "url"
      (.obj (some "https://a.example") (some "Some Page") (some "d") none) = none ∧
    (∃ fb row,
      fallbackFor "text" (.str "hello") = some fb ∧
      processContent demoVerify (some "Bearer tok") "text" "hello" (.error ()) (.error ())
          (.error ()) .fail true "now" "gid" 1 [] =
        (.okItem row, [] ++ [row], [⟨"saved_items", "insert", none, none⟩]) ∧
      row.title = fb.title ∧ row.ai_category = fb.category ∧
      row.ai_tags = fb.tags ∧ row.user_id = "u@x.com") := by
  refine ⟨?_, ?_, ?_⟩
  · exact analyze_fallback_amended.1 (.error ()) "text" "hello" rfl (Or.inr rfl)
  · exact analyze_fallback_amended.2.1 (.error ()) (some "https://a.example")
      (some "Some Page") (some "d") none rfl (by decide)
  · exact analyze_fallback_amended.2.2 demoVerify (some "Bearer tok") "u@x.com" "hello" "now"
      "gid" (.error ()) (.error ()) (.error ()) .fail 1 [] rfl rfl

/-- C3 counterexample: a url-type extraction failure produces no
fallback response at all — the eagerly built `fallbackResponses`
literal evaluates `content?.split` on the scraped record and throws —
contradicting the claim that every contentType in the set receives a
deterministic fallback record with HTTP success. -/
theorem analyze_url_fallback_crashes :
    analyze (.error ()) "url"
      (.obj (some "https://a.example") (some "Some Page") (some "desc") none) = none ∧
    fallbackFor "url"
      (.obj (some "https://a.example") (some "Some Page") (some "desc") none) = none :=
  ⟨rfl, rfl⟩

/-! ## C7: toggle-completion UUID validation -/

/-- C7 (amended claim, proved): for every authenticated
PATCH /api/toggle-completion request whose itemId (after string
conversion) does not match the strict UUID format, the handler responds
400, issues no store query, and leaves the store unchanged; the
response carries the explicit format-hint message whenever itemId is
truthy and completed is a boolean (otherwise the earlier
required-fields 400 fires first, still with no store query); and an
update query is only ever issued for an itemId matching the UUID
pattern. -/
theorem toggle_uuid_amended (vfv : String → Option String) (hdr : Option String)
    (itemId completed : JVal) (now : String) (st : List Item) :
    (∀ uid, authenticateUser vfv hdr = .ok uid → isUuid itemId.toStr = false →
      ((toggleCompletion vfv hdr itemId completed now st).1.status = 400 ∧
       (toggleCompletion vfv hdr itemId completed now st).2.2 = [] ∧
       (toggleCompletion vfv hdr itemId completed now st).2.1 = st) ∧
      (itemId.truthyV = true → completed.isBoolV = true →
        (toggleCompletion vfv hdr itemId completed now st).1 = .bad400 "uuid-format-hint")) ∧
    (∀ op, op ∈ (toggleCompletion vfv hdr itemId completed now st).2.2 →
      isUuid itemId.toStr = true) := by
  constructor
  · intro uid hauth hbadu
    by_cases hval : (!itemId.truthyV || !completed.isBoolV) = true
    · constructor
      · refine ⟨?_, ?_, ?_⟩ <;> simp [toggleCompletion, hauth, hval, HResp.status]
      · intro htr hbo
        rw [htr, hbo] at hval
        simp at hval
    · constructor
      · refine ⟨?_, ?_, ?_⟩ <;> simp [toggleCompletion, hauth, hval, hbadu, HResp.status]
      · intro _ _
        simp [toggleCompletion, hauth, hval, hbadu]
  · intro op hop
    by_cases hu : isUuid itemId.toStr = true
    · exact hu
    · exfalso
      rw [Bool.not_eq_true] at hu
      cases hauth : authenticateUser vfv hdr with
      | noToken => simp [toggleCompletion, hauth] at hop
      | invalidToken => simp [toggleCompletion, hauth] at hop
      | ok uid =>
        by_cases hval : (!itemId.truthyV || !completed.isBoolV) = true
        · simp [toggleCompletion, hauth, hval] at hop
        · simp [toggleCompletion, hauth, hval, hu] at hop

/-- C7 witness: `itemId = "not-a-uuid"` with a boolean `completed` gets
the 400 format hint, no store query, store untouched. -/
theorem toggle_uuid_amended_witness :
    ((toggleCompletion demoVerify (some "Bearer tok") (.vstr "not-a-uuid") (.vbool true)
        "now" []).1.status = 400 ∧
     (toggleCompletion demoVerify (some "Bearer tok") (.vstr "not-a-uuid") (.vbool true)
        "now" []).2.2 = [] ∧
     (toggleCompletion demoVerify (some "Bearer tok") (.vstr "not-a-uuid") (.vbool true)
        "now" []).2.1 = []) ∧
    (toggleCompletion demoVerify (some "Bearer tok") (.vstr "not-a-uuid") (.vbool true)
        "now" []).1 = .bad400 "uuid-format-hint" := by
  have h := (toggle_uuid_amended demoVerify (some "Bearer tok") (.vstr "not-a-uuid")
    (.vbool true) "now" []).1 "u@x.com" rfl rfl
  exact ⟨h.1, h.2 rfl rfl⟩

/-- C7 counterexample: with a non-boolean `completed`, a request whose
itemId does not match the UUID format is rejected by the earlier
required-fields check — 400, but without the format-hint message the
claim promises for every non-UUID itemId. -/
theorem toggle_nonboolean_message :
    (toggleCompletion demoVerify (some "Bearer tok") (.vstr "not-a-uuid") (.vstr "yes")
        "now" []).1 = .bad400 "itemId-and-completed-required" ∧
    HResp.bad400 "itemId-and-completed-required" ≠ HResp.bad400 "uuid-format-hint" := by
  refine ⟨rfl, fun hc => ?_⟩
  injection hc with h
  exact absurd h (by decide)

/-! ## C9: text metadata -/

/-- Endpoint /api/analyze on a text string never crashes: it answers some record
(main path or fallback). -/
theorem analyze_text_str_isSome (mr : Except Unit String) (c : String) :
    ∃ r, analyze mr "text" (.str c) = some r := by
  unfold analyze
  rw [if_neg (fun hc => absurd hc.1 (by decide)), if_pos (by decide)]
  cases hm : mainExtract mr with
  | some r => exact ⟨r, rfl⟩
  | none => exact ⟨_, rfl⟩

/-- C9 (amended claim, proved): for every text-type ingestion through
POST /api/process-content, the persisted content_metadata holds a word
count equal to the number of `\s+`-separated chunks of the trimmed
content — which is the whitespace-delimited word count whenever the
trimmed content is nonempty, but is 1 (not 0) for empty or
whitespace-only content — the character count of the content, and a
read-time estimate of max(1, ceil(word_count/200)) minutes. -/
theorem processContent_text_metadata_amended (vfv : String → Option String)
    (hdr : Option String) (uid content : String) (up : Except Unit (String × String))
    (mr : Except Unit String) (ig : Except Unit IgData) (f : FetchOutcome)
    (now gid : String) (ts : Nat) (st : List Item)
    (hauth : authenticateUser vfv hdr = .ok uid) :
    ((processContent vfv hdr "text" content up mr ig f true now gid ts st).2.1.map
        (fun it => it.content_metadata)) =
      (st.map fun it => it.content_metadata) ++
        [.textMeta (jsWordCount content) content.length
          (max 1 ((jsWordCount content + 199) / 200))] ∧
    ((trimL content.data).isEmpty = false → jsWordCount content = specWordCount content) ∧
    ((trimL content.data).isEmpty = true →
      jsWordCount content = 1 ∧ specWordCount content = 0) := by
  obtain ⟨pc, hpc⟩ := analyze_text_str_isSome mr content
  refine ⟨?_, ?_, ?_⟩
  · have hrun : (processContent vfv hdr "text" content up mr ig f true now gid ts st).2.1 =
        st ++ [textRow uid content gid ts pc] := by
      simp only [processContent, hauth]
      rw [if_neg (show ¬("text" : String) = "image" by decide),
        if_neg (show ¬("text" : String) = "url" by decide), hpc]
      rfl
    rw [hrun, List.map_append]
    rfl
  · intro hne
    simp only [jsWordCount, hne, Bool.false_eq_true, if_false, specWordCount]
  · intro he
    constructor
    · simp only [jsWordCount, he, if_true]
    · cases ht : trimL content.data with
      | nil => simp only [specWordCount, ht]; rfl
      | cons a as => rw [ht] at he; simp at he

/-- C9 witness: a concrete text ingestion persisting word, char, and
read-time metadata. -/
theorem processContent_text_metadata_amended_witness :
    ((processContent demoVerify (some "Bearer tok") "text" "hello world  foo" (.error ())
        (.error ()) (.error ()) .fail true "now" "gid" 1 []).2.1.map
        (fun it => it.content_metadata)) =
      (([] : List Item).map fun it => it.content_metadata) ++
        [.textMeta (jsWordCount "hello world  foo") ("hello world  foo" : String).length
          (max 1 ((jsWordCount "hello world  foo" + 199) / 200))] ∧
    ((trimL ("hello world  foo" : String).data).isEmpty = false →
      jsWordCount "hello world  foo" = specWordCount "hello world  foo") ∧
    ((trimL ("hello world  foo" : String).data).isEmpty = true →
      jsWordCount "hello world  foo" = 1 ∧ specWordCount "hello world  foo" = 0) :=
  processContent_text_metadata_amended demoVerify (some "Bearer tok") "u@x.com"
    "hello world  foo" (.error ()) (.error ()) (.error ()) .fail "now" "gid" 1 [] rfl

/-- C9 counterexample: for whitespace-only content the stored
word_count is 1, not the whitespace-delimited word count of the trimmed
content, which is 0. -/
theorem processContent_wordcount_mismatch :
    ((processContent demoVerify (some "Bearer tok") "text" "   " (.error ()) (.error ())
        (.error ()) .fail true "now" "gid" 1 []).2.1.map (fun it => it.content_metadata)) =
      [.textMeta 1 3 1] ∧
    specWordCount "   " = 0 ∧ (1 : Nat) ≠ 0 :=
  ⟨rfl, rfl, by decide⟩

/-! ## C10: detail view and view-count increment -/

theorem filter_map_if {α : Type} (l : List α) (p : α → Prop) [DecidablePred p] (f : α → α)
    (hf : ∀ x, p (f x) ↔ p x) :
    (l.map fun x => if p x then f x else x).filter (fun x => decide (p x)) =
      (l.filter (fun x => decide (p x))).map f := by
  induction l with
  | nil => rfl
  | cons a as ih =>
    by_cases hp : p a
    · simp only [List.map_cons, if_pos hp, List.filter_cons, decide_eq_true ((hf a).mpr hp),
        decide_eq_true hp, if_true, ih, List.map_cons]
    · simp only [List.map_cons, if_neg hp, List.filter_cons, decide_eq_false hp,
        Bool.false_eq_true, if_false, ih]

/-- C10 (confirmed): a successful GET /api/item/:itemId returns the
item exactly as it was read before the view-count side effect (old
view_count, old last_viewed_at), and the stored row afterwards has
view_count equal to the fetched value plus one (a missing stored count
counting as zero) and last_viewed_at set to the request time. -/
theorem getItem_view_count_spec (vfv : String → Option String) (hdr : Option String)
    (itemId now : String) (st : List Item) (uid : String) (it : Item)
    (hauth : authenticateUser vfv hdr = .ok uid)
    (hhit : st.filter (fun x => x.id = itemId ∧ x.user_id = uid) = [it]) :
    (getItem vfv hdr itemId now st).1 = .okItem it ∧
    ((getItem vfv hdr itemId now st).2.1.filter (fun x => x.id = itemId ∧ x.user_id = uid)) =
      [{ it with view_count := some (it.view_count.getD 0 + 1),
                 last_viewed_at := some now }] := by
  have hrun : getItem vfv hdr itemId now st =
      (.okItem it,
       st.map (fun x => if x.id = itemId ∧ x.user_id = uid then
         { x with view_count := some (it.view_count.getD 0 + 1),
                  last_viewed_at := some now } else x),
       [⟨"saved_items", "select", some itemId, some uid⟩,
        ⟨"saved_items", "update", some itemId, some uid⟩]) := by
    simp only [getItem, hauth, hhit]
  rw [hrun]
  refine ⟨rfl, ?_⟩
  rw [filter_map_if st (fun x => x.id = itemId ∧ x.user_id = uid)
    (fun x => { x with view_count := some (it.view_count.getD 0 + 1),
                       last_viewed_at := some now })
    (fun x => Iff.rfl)]
  rw [show st.filter (fun x => decide (x.id = itemId ∧ x.user_id = uid)) = [it] from hhit]
  rfl

/-- C10 witness: a concrete fetch of an owned item with view_count 3 —
the body carries 3, the store afterwards 4. -/
theorem getItem_view_count_spec_witness :
    (getItem demoVerify (some "Bearer tok") demoOwnItem.id "T1" [demoOwnItem]).1 =
      .okItem demoOwnItem ∧
    ((getItem demoVerify (some "Bearer tok") demoOwnItem.id "T1" [demoOwnItem]).2.1.filter
        (fun x => x.id = demoOwnItem.id ∧ x.user_id = "u@x.com")) =
      [{ demoOwnItem with view_count := some (demoOwnItem.view_count.getD 0 + 1),
                          last_viewed_at := some "T1" }] :=
  getItem_view_count_spec demoVerify (some "Bearer tok") demoOwnItem.id "T1" [demoOwnItem]
    "u@x.com" demoOwnItem rfl rfl

/-! ## C1: authentication and ownership scoping -/

theorem auth_noBearer (vfv : String → Option String) (hdr : Option String)
    (h : noBearer hdr = true) : authenticateUser vfv hdr = .noToken := by
  cases hdr with
  | none => rfl
  | some s =>
    simp only [noBearer] at h
    simp [authenticateUser, h]

theorem isUuid_len (s : String) (h : isUuid s = true) : s.data.length = 36 := by
  unfold isUuid at h
  rw [Bool.and_eq_true] at h
  exact of_decide_eq_true h.1

theorem isUuid_not_empty (s : String) (h : isUuid s = true) : s.isEmpty = false := by
  by_contra hne
  rw [Bool.not_eq_false, String.isEmpty_iff] at hne
  subst hne
  have h36 := isUuid_len "" h
  simp at h36

theorem toggle_ops (vfv : String → Option String) (hdr : Option String)
    (itemId completed : JVal) (now : String) (st : List Item) (uid : String)
    (hauth : authenticateUser vfv hdr = .ok uid) :
    (toggleCompletion vfv hdr itemId completed now st).2.2 = [] ∨
    (toggleCompletion vfv hdr itemId completed now st).2.2 =
      [⟨"saved_items", "update", some itemId.toStr, some uid⟩] := by
  by_cases hval : (!itemId.truthyV || !completed.isBoolV) = true
  · left; simp [toggleCompletion, hauth, hval]
  · by_cases hu : isUuid itemId.toStr = true
    · right
      cases hfil : st.filter (fun it => decide (it.id = itemId.toStr) && decide (it.user_id = uid)) with
      | nil => simp [toggleCompletion, hauth, hval, hu, hfil]
      | cons a tl => cases tl <;> simp [toggleCompletion, hauth, hval, hu, hfil]
    · left
      rw [Bool.not_eq_true] at hu
      simp [toggleCompletion, hauth, hval, hu]

theorem updateTitle_ops (vfv : String → Option String) (hdr : Option String)
    (itemId : JVal) (title : Option String) (now : String) (st : List Item) (uid : String)
    (hauth : authenticateUser vfv hdr = .ok uid) :
    (updateTitle vfv hdr itemId title now st).2.2 = [] ∨
    (updateTitle vfv hdr itemId title now st).2.2 =
      [⟨"saved_items", "update", some itemId.toStr, some uid⟩] := by
  by_cases htr : itemId.truthyV = true
  · cases title with
    | none => left; simp [updateTitle, hauth, htr]
    | some t =>
      by_cases hemp : t.isEmpty = true
      · left; simp [updateTitle, hauth, htr, hemp]
      · by_cases hlong : t.length > 100
        · left; simp [updateTitle, hauth, htr, hemp, hlong]
        · by_cases hu : isUuid itemId.toStr = true
          · right
            cases hfil : st.filter (fun it => decide (it.id = itemId.toStr) && decide (it.user_id = uid)) with
            | nil => simp [updateTitle, hauth, htr, hemp, hlong, hu, hfil]
            | cons a tl => cases tl <;> simp [updateTitle, hauth, htr, hemp, hlong, hu, hfil]
          · left
            rw [Bool.not_eq_true] at hu
            simp [updateTitle, hauth, htr, hemp, hlong, hu]
  · left
    rw [Bool.not_eq_true] at htr
    simp [updateTitle, hauth, htr]

theorem deleteItem_ops (vfv : String → Option String) (hdr : Option String)
    (itemId : String) (st : List Item) (uid : String)
    (hauth : authenticateUser vfv hdr = .ok uid) :
    (deleteItem vfv hdr itemId st).2.2 =
      [⟨"saved_items", "delete", some itemId, some uid⟩] := by
  cases hfil : st.filter (fun it => decide (it.id = itemId) && decide (it.user_id = uid)) with
  | nil => simp [deleteItem, hauth, hfil]
  | cons a tl => cases tl <;> simp [deleteItem, hauth, hfil]

theorem getItem_ops (vfv : String → Option String) (hdr : Option String)
    (itemId now : String) (st : List Item) (uid : String)
    (hauth : authenticateUser vfv hdr = .ok uid) :
    (getItem vfv hdr itemId now st).2.2 =
      [⟨"saved_items", "select", some itemId, some uid⟩] ∨
    (getItem vfv hdr itemId now st).2.2 =
      [⟨"saved_items", "select", some itemId, some uid⟩,
       ⟨"saved_items", "update", some itemId, some uid⟩] := by
  cases hfil : st.filter (fun it => decide (it.id = itemId) && decide (it.user_id = uid)) with
  | nil => left; simp [getItem, hauth, hfil]
  | cons a tl =>
    cases tl with
    | nil => right; simp [getItem, hauth, hfil]
    | cons b tl2 => left; simp [getItem, hauth, hfil]

theorem processContent_ops_kinds (vfv : String → Option String) (hdr : Option String)
    (ct content : String) (up : Except Unit (String × String)) (mr : Except Unit String)
    (ig : Except Unit IgData) (f : FetchOutcome) (ins : Bool) (now gid : String)
    (ts : Nat) (st : List Item) (uid : String)
    (hauth : authenticateUser vfv hdr = .ok uid) :
    ∀ op ∈ (processContent vfv hdr ct content up mr ig f ins now gid ts st).2.2,
      op.kind = "insert" ∨ op.kind = "upload" := by
  intro op hop
  simp only [processContent, hauth] at hop
  by_cases h1 : ct = "image"
  · rw [if_pos h1] at hop
    cases up with
    | ok p =>
      cases p with
      | mk pu pp =>
        cases han : analyze mr "image" (.str content) with
        | none =>
          rw [han] at hop
          simp at hop
          (try rcases hop with hop | hop) <;> (try subst hop) <;> simp
        | some pc =>
          rw [han] at hop
          cases ins <;> simp at hop <;> (try rcases hop with hop | hop) <;> (try subst hop) <;> simp
    | error e =>
      cases han : analyze mr "image" (.str content) with
      | none =>
        rw [han] at hop
        simp at hop
        (try rcases hop with hop | hop) <;> (try subst hop) <;> simp
      | some pc =>
        rw [han] at hop
        cases ins <;> simp at hop <;> (try rcases hop with hop | hop) <;> (try subst hop) <;> simp
  · rw [if_neg h1] at hop
    by_cases h2 : ct = "url"
    · rw [if_pos h2] at hop
      cases han : analyze mr "url" (analyzeContentOf (scrape ig f content).2) with
      | none =>
        rw [han] at hop
        simp at hop
      | some pc =>
        rw [han] at hop
        cases ins <;> simp at hop <;> (try rcases hop with hop | hop) <;> (try subst hop) <;> simp
    · rw [if_neg h2] at hop
      cases han : analyze mr "text" (.str content) with
      | none =>
        rw [han] at hop
        simp at hop
      | some pc =>
        rw [han] at hop
        cases ins <;> simp at hop <;> (try rcases hop with hop | hop) <;> (try subst hop) <;> simp

/-- C1 (amended claim, proved): for every protected endpoint operating
on a SavedItem (list, detail fetch, toggle-completion, update-title,
delete, process-content), a request bearing no bearer credential
receives 401 with the NO_AUTH_TOKEN (NoCredential) code and no store
access at all; under a verified credential, every store
read/update/delete issued by the per-item handlers (detail fetch,
toggle-completion, update-title, delete) is filtered by both the item
id and the owner identity derived from the credential, the list
handler's read — which has no single item id — is filtered by the
owner identity, and process-content issues only insert/upload
operations; a valid caller attempting to mutate an item owned by a
different identity receives 404 (not 403) and the foreign row is
unchanged. -/
theorem protected_scope_amended :
    (∀ (vfv : String → Option String) (hdr : Option String), noBearer hdr = true →
      ∀ (cat : Option String) (itemId completed : JVal) (title : Option String)
        (ct itemIdS now content gid : String) (up : Except Unit (String × String))
        (mr : Except Unit String) (ig : Except Unit IgData) (f : FetchOutcome)
        (ins : Bool) (ts : Nat) (st : List Item),
        savedItems vfv hdr cat st = (.auth401 "NO_AUTH_TOKEN", st, []) ∧
        getItem vfv hdr itemIdS now st = (.auth401 "NO_AUTH_TOKEN", st, []) ∧
        toggleCompletion vfv hdr itemId completed now st = (.auth401 "NO_AUTH_TOKEN", st, []) ∧
        updateTitle vfv hdr itemId title now st = (.auth401 "NO_AUTH_TOKEN", st, []) ∧
        deleteItem vfv hdr itemIdS st = (.auth401 "NO_AUTH_TOKEN", st, []) ∧
        processContent vfv hdr ct content up mr ig f ins now gid ts st =
          (.auth401 "NO_AUTH_TOKEN", st, [])) ∧
    (∀ (vfv : String → Option String) (hdr : Option String) (uid : String),
      authenticateUser vfv hdr = .ok uid →
      ∀ (cat : Option String) (itemId completed : JVal) (title : Option String)
        (ct itemIdS now content gid : String) (up : Except Unit (String × String))
        (mr : Except Unit String) (ig : Except Unit IgData) (f : FetchOutcome)
        (ins : Bool) (ts : Nat) (st : List Item),
        (∀ op ∈ (savedItems vfv hdr cat st).2.2,
          op.idFilter = none ∧ op.ownerFilter = some uid) ∧
        (∀ op ∈ (getItem vfv hdr itemIdS now st).2.2,
          op.idFilter = some itemIdS ∧ op.ownerFilter = some uid) ∧
        (∀ op ∈ (toggleCompletion vfv hdr itemId completed now st).2.2,
          op.idFilter = some itemId.toStr ∧ op.ownerFilter = some uid) ∧
        (∀ op ∈ (updateTitle vfv hdr itemId title now st).2.2,
          op.idFilter = some itemId.toStr ∧ op.ownerFilter = some uid) ∧
        (∀ op ∈ (deleteItem vfv hdr itemIdS st).2.2,
          op.idFilter = some itemIdS ∧ op.ownerFilter = some uid) ∧
        (∀ op ∈ (processContent vfv hdr ct content up mr ig f ins now gid ts st).2.2,
          op.kind = "insert" ∨ op.kind = "upload")) ∧
    (∀ (vfv : String → Option String) (hdr : Option String) (uid : String)
       (itemIdS now t : String) (b : Bool) (st : List Item),
      authenticateUser vfv hdr = .ok uid →
      isUuid itemIdS = true →
      (∀ it ∈ st, ¬(it.id = itemIdS ∧ it.user_id = uid)) →
      (∃ it ∈ st, it.id = itemIdS) →
      t ≠ "" → t.length ≤ 100 →
      ((toggleCompletion vfv hdr (.vstr itemIdS) (.vbool b) now st).1.status = 404 ∧
       (toggleCompletion vfv hdr (.vstr itemIdS) (.vbool b) now st).2.1 = st) ∧
      ((updateTitle vfv hdr (.vstr itemIdS) (some t) now st).1.status = 404 ∧
       (updateTitle vfv hdr (.vstr itemIdS) (some t) now st).2.1 = st) ∧
      ((deleteItem vfv hdr itemIdS st).1.status = 404 ∧
       (deleteItem vfv hdr itemIdS st).2.1 = st)) := by
  refine ⟨?_, ?_, ?_⟩
  · intro vfv hdr hA cat itemId completed title ct itemIdS now content gid up mr ig f ins ts st
    have hn := auth_noBearer vfv hdr hA
    refine ⟨?_, ?_, ?_, ?_, ?_, ?_⟩ <;>
      simp [savedItems, getItem, toggleCompletion, updateTitle, deleteItem, processContent, hn]
  · intro vfv hdr uid hauth cat itemId completed title ct itemIdS now content gid up mr ig
      f ins ts st
    refine ⟨?_, ?_, ?_, ?_, ?_, ?_⟩
    · intro op hop
      simp [savedItems, hauth] at hop
      subst hop
      exact ⟨rfl, rfl⟩
    · intro op hop
      rcases getItem_ops vfv hdr itemIdS now st uid hauth with h | h <;> rw [h] at hop <;>
        simp at hop
      · subst hop; exact ⟨rfl, rfl⟩
      · rcases hop with hop | hop <;> subst hop <;> exact ⟨rfl, rfl⟩
    · intro op hop
      rcases toggle_ops vfv hdr itemId completed now st uid hauth with h | h <;> rw [h] at hop
      · simp at hop
      · simp at hop
        subst hop
        exact ⟨rfl, rfl⟩
    · intro op hop
      rcases updateTitle_ops vfv hdr itemId title now st uid hauth with h | h <;> rw [h] at hop
      · simp at hop
      · simp at hop
        subst hop
        exact ⟨rfl, rfl⟩
    · intro op hop
      rw [deleteItem_ops vfv hdr itemIdS st uid hauth] at hop
      simp at hop
      subst hop
      exact ⟨rfl, rfl⟩
    · exact processContent_ops_kinds vfv hdr ct content up mr ig f ins now gid ts st uid hauth
  · intro vfv hdr uid itemIdS now t b st hauth huuid hno _hex hne hlen
    have hfil : st.filter (fun it => decide (it.id = itemIdS) && decide (it.user_id = uid)) = [] := by
      rw [List.filter_eq_nil_iff]
      intro a ha
      simpa using hno a ha
    have hmap : (st.map fun it =>
        if it.id = itemIdS ∧ it.user_id = uid then
          { it with is_completed := b, updated_at := some now } else it) = st :=
      map_if_id st _ _ hno
    have hmap2 : (st.map fun it =>
        if it.id = itemIdS ∧ it.user_id = uid then
          { it with title := jsTrunc (jsTrim t) 100, updated_at := some now } else it) = st :=
      map_if_id st _ _ hno
    have htr : JVal.truthyV (.vstr itemIdS) = true := by
      simp [JVal.truthyV, isUuid_not_empty itemIdS huuid]
    have hemp : itemIdS.isEmpty = false := isUuid_not_empty itemIdS huuid
    have htne : t.isEmpty = false := by
      rw [← Bool.not_eq_true, String.isEmpty_iff]
      exact hne
    refine ⟨⟨?_, ?_⟩, ⟨?_, ?_⟩, ⟨?_, ?_⟩⟩
    · simp [toggleCompletion, hauth, htr, JVal.isBoolV, JVal.toStr, huuid, hfil, HResp.status]
    · simp [toggleCompletion, hauth, htr, JVal.isBoolV, JVal.toStr, huuid, hfil, hmap]
    · simp [updateTitle, hauth, htr, htne, Nat.not_lt.mpr hlen, JVal.toStr, huuid, hfil,
        HResp.status]
    · simp [updateTitle, hauth, htr, htne, Nat.not_lt.mpr hlen, JVal.toStr, huuid, hfil, hmap2]
    · simp [deleteItem, hauth, hfil, HResp.status]
    · simp [deleteItem, hauth, hfil]
      intro a ha
      exact not_and_or.mp (hno a ha)

/-- C1 witness: a missing credential is rejected with 401 before any
store access; an authenticated list read is owner-scoped; mutating a
foreign item yields 404 with the row unchanged. -/
theorem protected_scope_amended_witness :
    toggleCompletion demoVerify none (.vstr demoItem.id) (.vbool true) "now" [demoItem] =
      (.auth401 "NO_AUTH_TOKEN", [demoItem], []) ∧
    ((⟨"saved_items", "select", none, some "u@x.com"⟩ : StoreOp).idFilter = none ∧
     (⟨"saved_items", "select", none, some "u@x.com"⟩ : StoreOp).ownerFilter =
       some "u@x.com") ∧
    ((toggleCompletion demoVerify (some "Bearer tok") (.vstr demoItem.id) (.vbool true)
        "now" [demoItem]).1.status = 404 ∧
     (toggleCompletion demoVerify (some "Bearer tok") (.vstr demoItem.id) (.vbool true)
        "now" [demoItem]).2.1 = [demoItem]) := by
  refine ⟨?_, ?_, ?_⟩
  · exact (protected_scope_amended.1 demoVerify none rfl none (.vstr demoItem.id)
      (.vbool true) none "text" demoItem.id "now" "c" "g" (.error ()) (.error ())
      (.error ()) .fail true 1 [demoItem]).2.2.1
  · exact (protected_scope_amended.2.1 demoVerify (some "Bearer tok") "u@x.com" rfl none
      (.vstr demoItem.id) (.vbool true) none "text" demoItem.id "now" "c" "g" (.error ())
      (.error ()) (.error ()) .fail true 1 [demoItem]).1
      ⟨"saved_items", "select", none, some "u@x.com"⟩ (List.Mem.head _)
  · exact (protected_scope_amended.2.2 demoVerify (some "Bearer tok") "u@x.com" demoItem.id
      "now" "T2" true [demoItem] rfl rfl (by decide) ⟨demoItem, List.Mem.head _, rfl⟩
      (by decide) (by decide)).1

/-- C1 counterexample: the list endpoint's store read carries an owner
filter but no item-id filter, so not every read issued by the protected
SavedItem handlers is filtered by the item id. -/
theorem saved_items_read_lacks_id_filter :
    ((savedItems demoVerify (some "Bearer tok") none []).2.2.all
      (fun op => op.idFilter.isSome)) = false :=
  rfl

/-! ## C5: feature voting -/

/-- C5 (amended claim, proved): for every owner and feature, POST
/api/features/vote gives a first vote in a direction a net of +1
(upvote) or -1 (downvote); re-voting the same direction — either
direction — deletes the vote row and nets the opposite of the original
effect (toggle-off); voting the opposite direction updates the vote row
and nets ±2; two successive upvotes by the same owner always restore
the vote rows, and restore the stored vote count provided it was
non-negative before the first call (the manual-fallback clamp breaks
the round trip from a negative count, see the counterexample); on the
atomic-RPC path the stored count moves by exactly the net, and on the
manual-fallback recomputation path it is clamped at a floor of zero. -/
theorem voteFeature_toggle_semantics (vfv : String → Option String) (hdr : Option String)
    (uid fid : String) (st : VoteState) (c : Int)
    (hauth : authenticateUser vfv hdr = .ok uid)
    (hfid : fid.isEmpty = false)
    (hc : st.counts fid = some c) :
    (∀ rpc, st.votes uid fid = none →
      (voteFeature vfv hdr fid "upvote" rpc st).1 = .okVote 1 ∧
      (voteFeature vfv hdr fid "upvote" rpc st).2.votes uid fid = some "upvote" ∧
      (voteFeature vfv hdr fid "upvote" rpc st).2.counts fid =
        some (if rpc then c + 1 else max 0 (c + 1))) ∧
    (∀ rpc, st.votes uid fid = none →
      (voteFeature vfv hdr fid "downvote" rpc st).1 = .okVote (-1) ∧
      (voteFeature vfv hdr fid "downvote" rpc st).2.votes uid fid = some "downvote" ∧
      (voteFeature vfv hdr fid "downvote" rpc st).2.counts fid =
        some (if rpc then c + -1 else max 0 (c + -1))) ∧
    (∀ rpc, st.votes uid fid = some "upvote" →
      (voteFeature vfv hdr fid "upvote" rpc st).1 = .okVote (-1) ∧
      (voteFeature vfv hdr fid "upvote" rpc st).2.votes uid fid = none ∧
      (voteFeature vfv hdr fid "upvote" rpc st).2.counts fid =
        some (if rpc then c + -1 else max 0 (c + -1))) ∧
    (∀ rpc, st.votes uid fid = some "downvote" →
      (voteFeature vfv hdr fid "downvote" rpc st).1 = .okVote 1 ∧
      (voteFeature vfv hdr fid "downvote" rpc st).2.votes uid fid = none ∧
      (voteFeature vfv hdr fid "downvote" rpc st).2.counts fid =
        some (if rpc then c + 1 else max 0 (c + 1))) ∧
    (∀ rpc, st.votes uid fid = some "downvote" →
      (voteFeature vfv hdr fid "upvote" rpc st).1 = .okVote 2 ∧
      (voteFeature vfv hdr fid "upvote" rpc st).2.votes uid fid = some "upvote" ∧
      (voteFeature vfv hdr fid "upvote" rpc st).2.counts fid =
        some (if rpc then c + 2 else max 0 (c + 2))) ∧
    (∀ rpc, st.votes uid fid = some "upvote" →
      (voteFeature vfv hdr fid "downvote" rpc st).1 = .okVote (-2) ∧
      (voteFeature vfv hdr fid "downvote" rpc st).2.votes uid fid = some "downvote" ∧
      (voteFeature vfv hdr fid "downvote" rpc st).2.counts fid =
        some (if rpc then c + -2 else max 0 (c + -2))) ∧
    (∀ rpc1 rpc2, st.votes uid fid = none →
      (voteFeature vfv hdr fid "upvote" rpc2
        (voteFeature vfv hdr fid "upvote" rpc1 st).2).2.votes = st.votes ∧
      (0 ≤ c →
        (voteFeature vfv hdr fid "upvote" rpc2
          (voteFeature vfv hdr fid "upvote" rpc1 st).2).2.counts = st.counts)) := by
  refine ⟨?_, ?_, ?_, ?_, ?_, ?_, ?_⟩
  · intro rpc hv
    refine ⟨?_, ?_, ?_⟩ <;> cases rpc <;> simp [voteFeature, hauth, hfid, hv, hc]
  · intro rpc hv
    refine ⟨?_, ?_, ?_⟩ <;> cases rpc <;> simp [voteFeature, hauth, hfid, hv, hc]
  · intro rpc hv
    refine ⟨?_, ?_, ?_⟩ <;> cases rpc <;> simp [voteFeature, hauth, hfid, hv, hc]
  · intro rpc hv
    refine ⟨?_, ?_, ?_⟩ <;> cases rpc <;> simp [voteFeature, hauth, hfid, hv, hc]
  · intro rpc hv
    refine ⟨?_, ?_, ?_⟩ <;> cases rpc <;> simp [voteFeature, hauth, hfid, hv, hc]
  · intro rpc hv
    refine ⟨?_, ?_, ?_⟩ <;> cases rpc <;> simp [voteFeature, hauth, hfid, hv, hc]
  · intro rpc1 rpc2 hv
    constructor
    · funext u f
      by_cases huf : u = uid ∧ f = fid
      · rw [huf.1, huf.2, hv]
        cases rpc1 <;> cases rpc2 <;> simp [voteFeature, hauth, hfid, hv, hc]
      · cases rpc1 <;> cases rpc2 <;>
          simp [voteFeature, hauth, hfid, hv, hc, huf]
    · intro hcpos
      funext f
      by_cases hf : f = fid
      · rw [hf, hc]
        cases rpc1 <;> cases rpc2 <;>
          simp [voteFeature, hauth, hfid, hv, hc] <;> omega
      · cases rpc1 <;> cases rpc2 <;>
          simp [voteFeature, hauth, hfid, hv, hc, hf]

/-- C5 witness: the spec's scenario on a concrete store — an upvote on
a count-7 feature nets +1 to 8, a downvote toggle-off on a stored
downvote nets +1 and deletes the vote row, and a second upvote by the
same owner restores both the vote rows and the count map. -/
theorem voteFeature_toggle_semantics_witness :
    ((voteFeature demoVerify (some "Bearer tok") "F" "upvote" true demoVotes).1 =
      .okVote 1 ∧
     (voteFeature demoVerify (some "Bearer tok") "F" "upvote" true demoVotes).2.votes
       "u@x.com" "F" = some "upvote" ∧
     (voteFeature demoVerify (some "Bearer tok") "F" "upvote" true demoVotes).2.counts "F" =
       some (if true then (7 : Int) + 1 else max 0 ((7 : Int) + 1))) ∧
    ((voteFeature demoVerify (some "Bearer tok") "F" "upvote" true
        (voteFeature demoVerify (some "Bearer tok") "F" "upvote" true demoVotes).2).2.votes =
      demoVotes.votes ∧
     (voteFeature demoVerify (some "Bearer tok") "F" "upvote" true
        (voteFeature demoVerify (some "Bearer tok") "F" "upvote" true demoVotes).2).2.counts =
      demoVotes.counts) := by
  have h := voteFeature_toggle_semantics demoVerify (some "Bearer tok") "u@x.com" "F"
    demoVotes 7 rfl rfl rfl
  have h7 := h.2.2.2.2.2.2 true true rfl
  exact ⟨h.1 true rfl, h7.1, h7.2 (by decide)⟩

/-- C5 counterexample: a negative stored count is reachable through the
atomic-RPC path (it does not clamp), and from such a state two
successive upvotes by the same owner do *not* leave the vote count
unchanged: the manual-fallback clamp lifts it to zero. Here a fresh
downvote by `other@x.com` on a count-0 feature drives the count to -1;
then `u@x.com` upvotes twice with the RPC failing, ending at 0, not the
-1 the double-upvote started from. -/
theorem voteFeature_double_upvote_not_invariant :
    ((voteFeature demoVerify2 (some "Bearer tok2") "F" "downvote" true zeroVotes).2.counts
        "F" = some (-1)) ∧
    ((voteFeature demoVerify2 (some "Bearer tok2") "F" "downvote" true zeroVotes).2.votes
        "u@x.com" "F" = none) ∧
    ((voteFeature demoVerify2 (some "Bearer tok") "F" "upvote" false
        (voteFeature demoVerify2 (some "Bearer tok") "F" "upvote" false
          (voteFeature demoVerify2 (some "Bearer tok2") "F" "downvote" true
            zeroVotes).2).2).2.counts "F" = some 0) ∧
    some (0 : Int) ≠ some (-1 : Int) :=
  ⟨rfl, rfl, rfl, by decide⟩

/-! ## C8: feature suggestion deduplication -/

theorem likeMatch_cons_nil (q : Char) (ps : List Char) (h1 : ¬(q = '\\'))
    (h2 : ¬(q = '%')) : likeMatch (q :: ps) [] = false := by
  cases ps with
  | nil =>
    show (if q = '\\' then false else if q = '%' then _ else false) = false
    rw [if_neg h1, if_neg h2]
  | cons e ps2 =>
    show (if q = '\\' then false else if q = '%' then _ else false) = false
    rw [if_neg h1, if_neg h2]

theorem likeMatch_cons_cons (q c : Char) (ps ts : List Char) (h1 : ¬(q = '\\'))
    (h2 : ¬(q = '%')) :
    likeMatch (q :: ps) (c :: ts) = ((q = '_' ∨ q = c) && likeMatch ps ts) := by
  cases ps with
  | nil =>
    show (if q = '\\' then false else if q = '%' then _
          else (decide (q = '_' ∨ q = c) && likeMatch [] ts)) = _
    rw [if_neg h1, if_neg h2]
  | cons e ps2 =>
    show (if q = '\\' then (decide (e = c) && likeMatch ps2 ts) else if q = '%' then _
          else (decide (q = '_' ∨ q = c) && likeMatch (e :: ps2) ts)) = _
    rw [if_neg h1, if_neg h2]

theorem likeMatch_pct (ps t : List Char) :
    likeMatch ('%' :: ps) t = (suffixes t).any (fun t2 => likeMatch ps t2) := by
  cases ps with
  | nil => rfl
  | cons e ps2 => rfl

theorem likeMatch_nil_pct (t : List Char) :
    likeMatch ['%'] t = true := by
  induction t with
  | nil => rfl
  | cons c ts ih =>
    show (suffixes (c :: ts)).any (fun t2 => likeMatch [] t2) = true
    simp only [suffixes, List.any_cons]
    rw [Bool.or_eq_true]
    right
    exact ih

theorem likeMatch_lit_pct (p : List Char) (hw : noWild p = true) (t : List Char) :
    likeMatch (p ++ ['%']) t = startsL p t := by
  induction p generalizing t with
  | nil =>
    rw [List.nil_append, likeMatch_nil_pct]
    rfl
  | cons q ps ih =>
    rw [noWild, List.all_cons, Bool.and_eq_true] at hw
    have hq : ¬(q = '%') ∧ ¬(q = '_') ∧ ¬(q = '\\') := by
      refine ⟨?_, ?_, ?_⟩ <;> intro hcq <;> subst hcq <;> simp at hw
    cases t with
    | nil =>
      rw [List.cons_append, likeMatch_cons_nil q (ps ++ ['%']) hq.2.2 hq.1]
      rfl
    | cons c ts =>
      rw [List.cons_append, likeMatch_cons_cons q c (ps ++ ['%']) ts hq.2.2 hq.1,
        ih hw.2 ts]
      show _ = (q == c && startsL ps ts)
      by_cases hqc : q = c
      · simp [hqc, hq.2.1]
      · simp [hqc, hq.2.1]

theorem hasSubL_eq_any_suffixes (t p : List Char) :
    hasSubL t p = (suffixes t).any (fun s => startsL p s) := by
  induction t with
  | nil => cases p <;> simp [hasSubL, suffixes, startsL]
  | cons c ts ih =>
    cases p with
    | nil => simp [hasSubL, suffixes, startsL]
    | cons q ps => simp [hasSubL, suffixes, ih]

/-- For a wildcard-free needle, ILIKE with a `%needle%` pattern is
case-insensitive substring containment. -/
theorem ilike_substring (p t : String) (hw : noWild (toLowerL p.data) = true) :
    ilikeMatch ("%" ++ p ++ "%") t = hasSubCI t p := by
  unfold ilikeMatch hasSubCI
  have hdata : ("%" ++ p ++ "%").data = '%' :: (p.data ++ ['%']) := by
    rw [String.data_append, String.data_append]
    rfl
  rw [hdata]
  have hlow : toLowerL ('%' :: (p.data ++ ['%'])) = '%' :: (toLowerL p.data ++ ['%']) := by
    simp [toLowerL, Char.toLower]
  rw [hlow, likeMatch_pct]
  rw [show (fun t2 => likeMatch (toLowerL p.data ++ ['%']) t2) =
      (fun t2 => startsL (toLowerL p.data) t2) from
    funext (fun t2 => likeMatch_lit_pct (toLowerL p.data) hw t2)]
  rw [hasSubL_eq_any_suffixes]

/-- C8 (amended claim, proved): POST /api/features rejects a suggestion
with 409 and inserts nothing exactly when some existing feature title
matches the `%trimmedTitle%` ILIKE pattern — which, for titles free of
the SQL wildcards `%` and `_` and of the default escape character `\`,
is precisely case-insensitive substring containment of the trimmed new
title in an existing title; otherwise the feature is inserted with
vote count 1 and an automatic upvote row for the creator. -/
theorem postFeature_amended (vfv : String → Option String) (hdr : Option String)
    (uid t : String) (descr : Option String) (gid : String) (st : FeatState)
    (hauth : authenticateUser vfv hdr = .ok uid)
    (htne : (jsTrim t).isEmpty = false)
    (hlen : t.length ≤ 100)
    (hdok : (match descr with | some d => decide (500 < d.length) | none => false) = false)
    (hw : noWild (toLowerL (jsTrim t).data) = true) :
    ((∃ f ∈ st.features, hasSubCI f.feature_title (jsTrim t) = true) →
      postFeature vfv hdr (some t) descr gid st = (.dup409, st)) ∧
    ((∀ f ∈ st.features, hasSubCI f.feature_title (jsTrim t) = false) →
      postFeature vfv hdr (some t) descr gid st =
        (.okFeature ⟨gid, uid, jsTrim t, descrTrim descr, 1, "suggested", "other"⟩,
         ⟨st.features ++ [⟨gid, uid, jsTrim t, descrTrim descr, 1, "suggested", "other"⟩],
          st.votes ++ [⟨uid, gid, "upvote"⟩]⟩)) := by
  have hdup : (st.features.any fun f => ilikeMatch ("%" ++ jsTrim t ++ "%") f.feature_title) =
      (st.features.any fun f => hasSubCI f.feature_title (jsTrim t)) := by
    rw [show (fun f : FeatRow => ilikeMatch ("%" ++ jsTrim t ++ "%") f.feature_title) =
        (fun f : FeatRow => hasSubCI f.feature_title (jsTrim t)) from
      funext (fun f => ilike_substring (jsTrim t) f.feature_title hw)]
  constructor
  · intro hex
    have hany : (st.features.any fun f => hasSubCI f.feature_title (jsTrim t)) = true := by
      rw [List.any_eq_true]
      obtain ⟨f, hf, hsub⟩ := hex
      exact ⟨f, hf, hsub⟩
    simp [postFeature, hauth, htne, Nat.not_lt.mpr hlen, hdok, hdup, hany]
  · intro hall
    have hany : (st.features.any fun f => hasSubCI f.feature_title (jsTrim t)) = false := by
      rw [← Bool.not_eq_true, List.any_eq_true]
      rintro ⟨f, hf, hsub⟩
      rw [hall f hf] at hsub
      exact absurd hsub (by decide)
    simp [postFeature, hauth, htne, Nat.not_lt.mpr hlen, hdok, hdup, hany]

/-- C8 witness: the spec's scenario — suggesting "Dark Mode" while
"Dark Mode Support" exists is rejected with 409 and nothing inserted;
suggesting "Light Mode" is inserted with vote count 1 and the
creator's automatic upvote row. -/
theorem postFeature_amended_witness :
    postFeature demoVerify (some "Bearer tok") (some "Dark Mode") none "g1"
        ⟨[demoFeature], []⟩ = (.dup409, ⟨[demoFeature], []⟩) ∧
    postFeature demoVerify (some "Bearer tok") (some "Light Mode") none "g1"
        ⟨[demoFeature], []⟩ =
      (.okFeature ⟨"g1", "u@x.com", jsTrim "Light Mode", descrTrim none, 1, "suggested",
         "other"⟩,
       ⟨[demoFeature] ++ [⟨"g1", "u@x.com", jsTrim "Light Mode", descrTrim none, 1,
          "suggested", "other"⟩],
        [] ++ [⟨"u@x.com", "g1", "upvote"⟩]⟩) := by
  constructor
  · exact (postFeature_amended demoVerify (some "Bearer tok") "u@x.com" "Dark Mode" none
      "g1" ⟨[demoFeature], []⟩ rfl rfl (by decide) rfl rfl).1
      ⟨demoFeature, List.Mem.head _, rfl⟩
  · exact (postFeature_amended demoVerify (some "Bearer tok") "u@x.com" "Light Mode" none
      "g1" ⟨[demoFeature], []⟩ rfl rfl (by decide) rfl rfl).2
      (fun f hf => by rw [List.mem_singleton.mp hf]; rfl)

/-- C8 counterexample: the duplicate check is an ILIKE pattern match,
not a plain case-insensitive substring comparison — a title containing
the SQL wildcard `%` is rejected as a duplicate of an existing title of
which it is *not* a substring, and a title containing the default
escape character `\` (here `a\b`, whose pattern `%a\b%` matches any
title containing `ab`) is rejected against `lab`, which does not
contain it either. -/
theorem postFeature_wildcard_dedup :
    (postFeature demoVerify (some "Bearer tok") (some "100%") none "g2"
        ⟨[⟨"f2", "a@x", "100x done", none, 2, "suggested", "other"⟩], []⟩).1 = .dup409 ∧
    hasSubCI "100x done" "100%" = false ∧
    (postFeature demoVerify (some "Bearer tok") (some "a\\b") none "g3"
        ⟨[⟨"f3", "a@x", "lab", none, 2, "suggested", "other"⟩], []⟩).1 = .dup409 ∧
    hasSubCI "lab" "a\\b" = false :=
  ⟨rfl, rfl, rfl, rfl⟩

end Dangit
